import Mathlib

/-!
# Verification of the hierarchical timer wheel repository

This file gives a shallow embedding of the timer-wheel code
(`timer_wheel_simulator.py`, `timer_wheel_76.py`, `timer_wheel_expiration.py`)
and proves or refutes the frozen behavioural claims about it.

Modelling conventions:
* Python integers are `Int`; tick counters (which start at 0 and are only
  incremented) are `Nat`.
* Python `x >> k` on an `Int` is floor division by `2 ^ k` (`Int.fdiv`);
  `x & 63` on an `Int` is `Int.emod x 64` (non-negative remainder, exactly
  Python's semantics for a positive mask); on a `Nat` clock, `x >> k` is
  `x >>> k` and `x & 63` is `x % 64`.
* A timer's callback is opaque caller code.  Its only interaction with the
  wheel is whether the invocation raises an exception (which the simulator's
  `advance_time` catches per timer); we model that behaviour by a `raises`
  flag on the timer, and `advance_time` collects the timers whose callback
  raised in an `errors` list (the code prints the error and continues).
* Fallible Python code (division by zero in `1000 // HZ`) returns `Option`.
-/

set_option maxRecDepth 4000

/-! ## Wheel geometry

From `TimerWheelConfig.__post_init__` in `timer_wheel_simulator.py`
(the identical constants appear in `TimerWheel.__init__` of
`timer_wheel_76.py` and `timer_wheel_expiration.py`).
The Python code precomputes the lists `level_gran` / `level_start`
whose `n`-th entries are exactly the closed forms below.
-/

def LVL_CLK_SHIFT : Nat := 3

def LVL_CLK_DIV : Nat := 1 <<< LVL_CLK_SHIFT

def LVL_BITS : Nat := 6

def LVL_SIZE : Nat := 1 <<< LVL_BITS

def LVL_MASK : Nat := LVL_SIZE - 1

structure TimerWheelConfig where
  HZ : Int
  LVL_DEPTH : Nat
deriving DecidableEq

/-- `TimerWheelConfig(HZ)`: `LVL_DEPTH = 9 if HZ > 100 else 8`.
No validation of `HZ` is performed anywhere in `__post_init__`. -/
def mkConfig (HZ : Int) : TimerWheelConfig :=
  { HZ := HZ, LVL_DEPTH := if HZ > 100 then 9 else 8 }

/-- `level_gran[n] = 1 << (n * LVL_CLK_SHIFT)`. -/
def level_gran (n : Nat) : Nat := 1 <<< (n * LVL_CLK_SHIFT)

/-- `level_start[0] = 0`,
`level_start[n] = (LVL_SIZE - 1) << ((n - 1) * LVL_CLK_SHIFT)` for `n > 0`. -/
def level_start (n : Nat) : Nat :=
  if n = 0 then 0 else (LVL_SIZE - 1) <<< ((n - 1) * LVL_CLK_SHIFT)

/-- `WHEEL_TIMEOUT_CUTOFF = level_start[LVL_DEPTH]`. -/
def WHEEL_TIMEOUT_CUTOFF (cfg : TimerWheelConfig) : Nat :=
  level_start cfg.LVL_DEPTH

/-- `WHEEL_TIMEOUT_MAX = WHEEL_TIMEOUT_CUTOFF - level_gran[LVL_DEPTH - 1]`. -/
def WHEEL_TIMEOUT_MAX (cfg : TimerWheelConfig) : Nat :=
  WHEEL_TIMEOUT_CUTOFF cfg - level_gran (cfg.LVL_DEPTH - 1)

/-- `WHEEL_SIZE = LVL_SIZE * LVL_DEPTH`. -/
def WHEEL_SIZE (cfg : TimerWheelConfig) : Nat := LVL_SIZE * cfg.LVL_DEPTH

/-- `get_tick_ms`: `1000 // self.HZ` (floor division).
Python raises `ZeroDivisionError` when `HZ = 0`, modelled as `none`. -/
def get_tick_ms (cfg : TimerWheelConfig) : Option Int :=
  if cfg.HZ = 0 then none else some (Int.fdiv 1000 cfg.HZ)

/-- `LVL_OFFS(n) = n * LVL_SIZE` (`level_offset` in the two `TimerWheel`
classes). -/
def level_offset (n : Nat) : Nat := n * LVL_SIZE

/-- Python `x >> k` on an arbitrary integer: floor division by `2 ^ k`.
Since the divisor is positive, floor division coincides with Lean's
`Int` division (E-division, non-negative remainder). -/
def py_shr (x : Int) (k : Nat) : Int := x / ((2 : Int) ^ k)

/-- Python `x & LVL_MASK` (`= x & 63`) on an arbitrary integer: the
non-negative remainder of `x` modulo 64, returned as a `Nat`. -/
def py_mask (x : Int) : Nat := (x % (64 : Int)).toNat

/-! ## The three index mappers -/

/-- The level-selection loop of `TimerWheelSimulator.calc_index`
(`timer_wheel_simulator.py` lines 80-93):

    for lvl in range(LVL_DEPTH):
        if lvl == LVL_DEPTH - 1:
            if delta < WHEEL_TIMEOUT_MAX: level = lvl
            break
        if delta < level_start[lvl + 1]:
            level = lvl
            break

`lvl` is the current loop variable, the `Nat` fuel is the number of
remaining loop iterations (initially `LVL_DEPTH`); `depth` and `maxt`
are the configuration's `LVL_DEPTH` and `WHEEL_TIMEOUT_MAX`. -/
def findLevelAux (depth maxt : Nat) (delta : Int) : Nat → Nat → Option Nat
  | _, 0 => none
  | lvl, fuel + 1 =>
    if lvl = depth - 1 then
      (if delta < (maxt : Int) then some lvl else none)
    else if delta < (level_start (lvl + 1) : Int) then some lvl
    else findLevelAux depth maxt delta (lvl + 1) fuel

/-- `TimerWheelSimulator.calc_index(expires)` with the state's
`self.clock` made an explicit argument.  Returns `none` for
"beyond wheel capacity".  Bucket:
`(expires >> (LVL_CLK_SHIFT * level)) & LVL_MASK`,
index: `(level * LVL_SIZE) + bucket`. -/
def calc_index (cfg : TimerWheelConfig) (expires : Int) (clock : Nat) : Option Nat :=
  let delta : Int := expires - (clock : Int)
  (findLevelAux cfg.LVL_DEPTH (WHEEL_TIMEOUT_MAX cfg) delta 0 cfg.LVL_DEPTH).map fun level =>
    level * LVL_SIZE + py_mask (py_shr expires (LVL_CLK_SHIFT * level))

/-- `TimerWheel.time_to_index(expires, clk)` from `timer_wheel_76.py`:
a chain of `elif delta < self.level_start[k]` tests for levels 0..7, then
`if self.LVL_DEPTH > 8 and delta < self.level_start[9]: level = 8`,
otherwise `None`.  Final index `level_offset(level) + idx` with
`idx = (expires >> (LVL_CLK_SHIFT * level)) & LVL_MASK`. -/
def time_to_index (cfg : TimerWheelConfig) (expires : Int) (clk : Int) : Option Nat :=
  let delta : Int := expires - clk
  let levelResult : Option Nat :=
    if delta < (level_start 1 : Int) then some 0
    else if delta < (level_start 2 : Int) then some 1
    else if delta < (level_start 3 : Int) then some 2
    else if delta < (level_start 4 : Int) then some 3
    else if delta < (level_start 5 : Int) then some 4
    else if delta < (level_start 6 : Int) then some 5
    else if delta < (level_start 7 : Int) then some 6
    else if delta < (level_start 8 : Int) then some 7
    else if cfg.LVL_DEPTH > 8 ∧ delta < (level_start 9 : Int) then some 8
    else none
  levelResult.map fun level =>
    level_offset level + py_mask (py_shr expires (LVL_CLK_SHIFT * level))

/-- `TimerWheel.calc_index(expires)` from `timer_wheel_expiration.py`
(lines 85-125): textually the same algorithm as
`timer_wheel_76.TimerWheel.time_to_index`, reading the clock from
`self.clk`. -/
def exp_calc_index (cfg : TimerWheelConfig) (expires : Int) (clk : Nat) : Option Nat :=
  let delta : Int := expires - (clk : Int)
  let levelResult : Option Nat :=
    if delta < (level_start 1 : Int) then some 0
    else if delta < (level_start 2 : Int) then some 1
    else if delta < (level_start 3 : Int) then some 2
    else if delta < (level_start 4 : Int) then some 3
    else if delta < (level_start 5 : Int) then some 4
    else if delta < (level_start 6 : Int) then some 5
    else if delta < (level_start 7 : Int) then some 6
    else if delta < (level_start 8 : Int) then some 7
    else if cfg.LVL_DEPTH > 8 ∧ delta < (level_start 9 : Int) then some 8
    else none
  levelResult.map fun level =>
    level_offset level + py_mask (py_shr expires (LVL_CLK_SHIFT * level))

/-! ## Simulator state and operations (`timer_wheel_simulator.py`) -/

/-- The `Timer` dataclass.  `callback`/`data` are opaque caller payloads;
the callback's only interaction with the wheel is whether invoking it
raises (caught per-timer by `advance_time`), modelled by `raises`. -/
structure Timer where
  id : String
  expires : Int
  raises : Bool
  wheel_index : Nat
deriving DecidableEq

/-- `TimerWheelSimulator` state.  The Python lists `vectors` (of
`WHEEL_SIZE` bucket lists) and `pending_map` (of `WHEEL_SIZE` ints)
are modelled as functions from the bucket index; indices `≥ WHEEL_SIZE`
are never touched by the operations. -/
@[ext] structure TimerWheelSimulator where
  cfg : TimerWheelConfig
  clock : Nat
  vectors : Nat → List Timer
  pending_map : Nat → Nat
  timers_added : Nat
  timers_expired : Nat
  timers_cancelled : Nat

/-- `TimerWheelSimulator.__init__(HZ)`: note that construction always
succeeds — there is no validation of `HZ` anywhere. -/
def initSim (HZ : Int) : TimerWheelSimulator :=
  { cfg := mkConfig HZ
    clock := 0
    vectors := fun _ => []
    pending_map := fun _ => 0
    timers_added := 0
    timers_expired := 0
    timers_cancelled := 0 }

/-- The core of `TimerWheelSimulator.add_timer` after the
millisecond-to-tick conversion (`timeout_ticks = timeout_ms // tick_ms`):

    expires = self.clock + timeout_ticks
    idx = self.calc_index(expires)
    if idx is None:
        expires = self.clock + WHEEL_TIMEOUT_MAX
        idx = WHEEL_SIZE - 1
    timer = Timer(id, expires, callback, data, idx)
    self.vectors[idx].append(timer)
    self.pending_map[idx] = 1
    self.timers_added += 1

Returns the new state together with the created `Timer` (which the
Python method returns).  `timer_id = None` selects the default id
`f"timer_{self.timers_added}"`. -/
def add_timer_ticks (s : TimerWheelSimulator) (timeout_ticks : Int)
    (timer_id : Option String) (raises : Bool) : TimerWheelSimulator × Timer :=
  let tid := timer_id.getD ("timer_" ++ toString s.timers_added)
  let expires0 : Int := (s.clock : Int) + timeout_ticks
  let p : Int × Nat :=
    match calc_index s.cfg expires0 s.clock with
    | some idx => (expires0, idx)
    | none => ((s.clock : Int) + (WHEEL_TIMEOUT_MAX s.cfg : Int), WHEEL_SIZE s.cfg - 1)
  let timer : Timer :=
    { id := tid, expires := p.1, raises := raises, wheel_index := p.2 }
  ({ s with
      vectors := fun j => if j = p.2 then s.vectors p.2 ++ [timer] else s.vectors j
      pending_map := fun j => if j = p.2 then 1 else s.pending_map j
      timers_added := s.timers_added + 1 },
   timer)

/-- `TimerWheelSimulator.add_timer(timeout_ms, ...)` including the
conversion `timeout_ticks = timeout_ms // self.config.get_tick_ms()`
(`none` when the conversion itself raises: `HZ = 0`, or `tick_ms = 0`,
i.e. `HZ > 1000`). -/
def add_timer (s : TimerWheelSimulator) (timeout_ms : Int)
    (timer_id : Option String) (raises : Bool) :
    Option (TimerWheelSimulator × Timer) :=
  (get_tick_ms s.cfg).bind fun tick_ms =>
    if tick_ms = 0 then none
    else some (add_timer_ticks s (Int.fdiv timeout_ms tick_ms) timer_id raises)

/-- Result of an `advance_time` call: the final state, the fired
callbacks in invocation order (`(timer, firing clock)` — the callback is
called as `timer.callback(timer.id, timer.data, self.clock)`), the
subset whose callback raised (caught and reported, line 184-185), and
the running counter `expired_in_this_advance` which the method returns. -/
@[ext] structure AdvanceResult where
  state : TimerWheelSimulator
  fired : List (Timer × Nat)
  errors : List (Timer × Nat)
  count : Nat

/-- One level of the per-tick scan of `TimerWheelSimulator.advance_time`
(lines 166-193), at clock value `u = self.clock`:

    bucket = (self.clock >> (LVL_CLK_SHIFT * level)) & LVL_MASK
    idx = (level * LVL_SIZE) + bucket
    if self.pending_map[idx] and self.vectors[idx]:
        <partition into expired (timer.expires <= self.clock) and kept,
         fire each expired timer's callback inside try/except,
         count each expired timer>
        self.vectors[idx] = timers_to_keep
        if not timers_to_keep: self.pending_map[idx] = 0

The Python loop walks the bucket in order, so the expired sublist and
the kept sublist are the two order-preserving filters below. -/
def scanLevel (u : Nat) (r : AdvanceResult) (level : Nat) : AdvanceResult :=
  let s := r.state
  let bucket := (u >>> (LVL_CLK_SHIFT * level)) % LVL_SIZE
  let idx := level * LVL_SIZE + bucket
  if s.pending_map idx ≠ 0 ∧ s.vectors idx ≠ [] then
    let expired := (s.vectors idx).filter fun t => decide (t.expires ≤ (u : Int))
    let timers_to_keep := (s.vectors idx).filter fun t => !decide (t.expires ≤ (u : Int))
    { state :=
        { s with
          vectors := fun j => if j = idx then timers_to_keep else s.vectors j
          pending_map := fun j =>
            if j = idx then (if timers_to_keep = [] then 0 else s.pending_map j)
            else s.pending_map j
          timers_expired := s.timers_expired + expired.length }
      fired := r.fired ++ expired.map fun t => (t, u)
      errors := r.errors ++ (expired.filter fun t => t.raises).map fun t => (t, u)
      count := r.count + expired.length }
  else r

/-- One iteration of the outer `for _ in range(ticks_to_advance)` loop:
`self.clock += 1`, then scan every level's current bucket. -/
def tickStep (r : AdvanceResult) : AdvanceResult :=
  let u := r.state.clock + 1
  (List.range r.state.cfg.LVL_DEPTH).foldl (scanLevel u)
    { r with state := { r.state with clock := u } }

def advanceTicksAux : Nat → AdvanceResult → AdvanceResult
  | 0, r => r
  | n + 1, r => advanceTicksAux n (tickStep r)

/-- The core of `TimerWheelSimulator.advance_time` after the
millisecond-to-tick conversion: advance `n` unit ticks.  The Python
method returns `expired_in_this_advance`, i.e. `(advanceTicks s n).count`. -/
def advanceTicks (s : TimerWheelSimulator) (n : Nat) : AdvanceResult :=
  advanceTicksAux n { state := s, fired := [], errors := [], count := 0 }

/-- `TimerWheelSimulator.advance_time(ms_to_advance)` including the
conversion `ticks_to_advance = ms_to_advance // tick_ms`.  A negative
tick count makes `range()` empty, hence `Int.toNat`. -/
def advance_time (s : TimerWheelSimulator) (ms_to_advance : Int) :
    Option AdvanceResult :=
  (get_tick_ms s.cfg).bind fun tick_ms =>
    if tick_ms = 0 then none
    else some (advanceTicks s (Int.fdiv ms_to_advance tick_ms).toNat)

/-! ## Expiration variant state and operations (`timer_wheel_expiration.py`) -/

/-- The timer dict of `timer_wheel_expiration.TimerWheel.add_timer`:
`{'id', 'expires', 'timeout_ms', 'wheel_idx'}`. -/
structure ExpTimerData where
  id : String
  expires : Int
  timeout_ms : Int
  wheel_idx : Nat
deriving DecidableEq

/-- `timer_wheel_expiration.TimerWheel` mutable state. -/
@[ext] structure ExpTimerWheel where
  cfg : TimerWheelConfig
  clk : Nat
  vectors : Nat → List ExpTimerData
  pending_map : Nat → Nat

/-- `timer_wheel_expiration.TimerWheel.__init__(hz)` (again, no
validation of `hz`). -/
def expInit (hz : Int) : ExpTimerWheel :=
  { cfg := mkConfig hz
    clk := 0
    vectors := fun _ => []
    pending_map := fun _ => 0 }

/-- Core of `timer_wheel_expiration.TimerWheel.add_timer(timer_id,
timeout_ms)` after the conversion `timeout_ticks = timeout_ms // tick_ms`:

    expires = self.clk + timeout_ticks
    idx = self.calc_index(expires)
    if idx is None: return None            # overflow REJECTED
    self.vectors[idx].append(timer_data)
    self.pending_map[idx] = 1
    return idx

The pair holds the (possibly unchanged) state and the returned index. -/
def exp_add_timer_ticks (w : ExpTimerWheel) (timer_id : String)
    (timeout_ms : Int) (timeout_ticks : Int) : ExpTimerWheel × Option Nat :=
  let expires : Int := (w.clk : Int) + timeout_ticks
  match exp_calc_index w.cfg expires w.clk with
  | none => (w, none)
  | some idx =>
    let timer_data : ExpTimerData :=
      { id := timer_id, expires := expires, timeout_ms := timeout_ms, wheel_idx := idx }
    ({ w with
        vectors := fun j => if j = idx then w.vectors idx ++ [timer_data] else w.vectors j
        pending_map := fun j => if j = idx then 1 else w.pending_map j },
     some idx)

/-- `timer_wheel_expiration.TimerWheel.add_timer` including the
millisecond conversion. -/
def exp_add_timer (w : ExpTimerWheel) (timer_id : String) (timeout_ms : Int) :
    Option (ExpTimerWheel × Option Nat) :=
  (get_tick_ms w.cfg).bind fun tick_ms =>
    if tick_ms = 0 then none
    else some (exp_add_timer_ticks w timer_id timeout_ms (Int.fdiv timeout_ms tick_ms))

/-- Result of `timer_wheel_expiration.TimerWheel.advance_time`: final
state, the expired timers reported (printed) in order with the clock
value at which they were processed, and the method's return value
`remaining = sum(len(bucket) for bucket in self.vectors)`. -/
@[ext] structure ExpAdvanceResult where
  state : ExpTimerWheel
  fired : List (ExpTimerData × Nat)
  ret : Nat

/-- One level of the per-tick scan of
`timer_wheel_expiration.TimerWheel.advance_time` (lines 186-215) at
clock value `u = new_clk`.  Unlike the simulator, the guard is only
`if self.pending_map[wheel_idx]:` (no emptiness test on the bucket). -/
def expScanLevel (u : Nat) (acc : ExpTimerWheel × List (ExpTimerData × Nat))
    (level : Nat) : ExpTimerWheel × List (ExpTimerData × Nat) :=
  let w := acc.1
  let bucket_idx := (u >>> (LVL_CLK_SHIFT * level)) % LVL_SIZE
  let wheel_idx := level_offset level + bucket_idx
  if w.pending_map wheel_idx ≠ 0 then
    let timers_to_process := (w.vectors wheel_idx).filter fun t => decide (t.expires ≤ (u : Int))
    let timers_to_keep := (w.vectors wheel_idx).filter fun t => !decide (t.expires ≤ (u : Int))
    ({ w with
        vectors := fun j => if j = wheel_idx then timers_to_keep else w.vectors j
        pending_map := fun j =>
          if j = wheel_idx then (if timers_to_keep = [] then 0 else w.pending_map j)
          else w.pending_map j },
     acc.2 ++ timers_to_process.map fun t => (t, u))
  else acc

/-- Core of `timer_wheel_expiration.TimerWheel.advance_time` after the
conversion: `for tick in range(1, ticks_to_advance + 1)` scans every
level at `new_clk = self.clk + tick` (the stored clock is not updated
until after the loop: `self.clk += ticks_to_advance`), then returns
`remaining = sum(len(bucket) for bucket in self.vectors)` — the number
of timers still pending, not the number fired. -/
def exp_advance_ticks (w : ExpTimerWheel) (n : Nat) : ExpAdvanceResult :=
  let stepTick := fun (acc : ExpTimerWheel × List (ExpTimerData × Nat)) (tick : Nat) =>
    (List.range w.cfg.LVL_DEPTH).foldl (expScanLevel (w.clk + tick)) acc
  let acc := (List.range' 1 n).foldl stepTick (w, [])
  let final : ExpTimerWheel := { acc.1 with clk := w.clk + n }
  { state := final
    fired := acc.2
    ret := ((List.range (WHEEL_SIZE w.cfg)).map fun i => (final.vectors i).length).sum }

/-- `timer_wheel_expiration.TimerWheel.advance_time(ms_to_advance)`
including the millisecond conversion. -/
def exp_advance_time (w : ExpTimerWheel) (ms_to_advance : Int) :
    Option ExpAdvanceResult :=
  (get_tick_ms w.cfg).bind fun tick_ms =>
    if tick_ms = 0 then none
    else some (exp_advance_ticks w (Int.fdiv ms_to_advance tick_ms).toNat)

/-! ## Basic facts about the geometry -/

theorem LVL_SIZE_eq : LVL_SIZE = 64 := rfl

theorem LVL_CLK_SHIFT_eq : LVL_CLK_SHIFT = 3 := rfl

theorem mkConfig_depth (hz : Int) :
    (mkConfig hz).LVL_DEPTH = 9 ∨ (mkConfig hz).LVL_DEPTH = 8 := by
  unfold mkConfig
  split <;> simp

theorem mkConfig_depth_pos (hz : Int) : 1 ≤ (mkConfig hz).LVL_DEPTH := by
  rcases mkConfig_depth hz with h | h <;> omega

theorem py_mask_lt (x : Int) : py_mask x < 64 := by
  unfold py_mask
  omega

/-! ## Characterization of the simulator's level-selection loop (for C2) -/

/-- The qualification test the spec describes for level `l`: compare
`delta` against `levelStart[l+1]`, except at the last level where the
comparison is against `maxTimeout`.  `depth` and `maxt` are the
configuration's `LVL_DEPTH` and `WHEEL_TIMEOUT_MAX`. -/
def levelCond (depth maxt : Nat) (delta : Int) (l : Nat) : Prop :=
  if l = depth - 1 then delta < (maxt : Int)
  else delta < (level_start (l + 1) : Int)

instance levelCondDecidable (depth maxt : Nat) (delta : Int) (l : Nat) :
    Decidable (levelCond depth maxt delta l) := by
  unfold levelCond
  infer_instance

/-- "The level is the first level `l` (scanning in increasing order)
qualifying for `delta`" — the spec-side description of `calc_index`'s
level choice. -/
def isFirstQualifying (depth maxt : Nat) (delta : Int) (l : Nat) : Prop :=
  l < depth ∧ levelCond depth maxt delta l ∧ ∀ j < l, ¬ levelCond depth maxt delta j

instance isFirstQualifyingDecidable (depth maxt : Nat) (delta : Int) (l : Nat) :
    Decidable (isFirstQualifying depth maxt delta l) := by
  unfold isFirstQualifying
  infer_instance

theorem findLevelAux_eq_some (depth maxt : Nat) (delta : Int) :
    ∀ fuel lvl m, lvl ≤ depth - 1 → findLevelAux depth maxt delta lvl fuel = some m →
      lvl ≤ m ∧ m ≤ depth - 1 ∧ levelCond depth maxt delta m ∧
        ∀ j, lvl ≤ j → j < m → ¬ levelCond depth maxt delta j := by
  intro fuel
  induction fuel with
  | zero => intro lvl m _ h; simp [findLevelAux] at h
  | succ fuel ih =>
    intro lvl m hrange h
    unfold findLevelAux at h
    by_cases hlast : lvl = depth - 1
    · rw [if_pos hlast] at h
      by_cases hmax : delta < (maxt : Int)
      · rw [if_pos hmax] at h
        obtain rfl : lvl = m := by injection h
        refine ⟨le_refl _, by omega, ?_, by omega⟩
        unfold levelCond
        rw [if_pos hlast]
        exact hmax
      · rw [if_neg hmax] at h
        exact absurd h (by simp)
    · rw [if_neg hlast] at h
      by_cases hstart : delta < (level_start (lvl + 1) : Int)
      · rw [if_pos hstart] at h
        obtain rfl : lvl = m := by injection h
        exact ⟨le_refl _, hrange, by unfold levelCond; rw [if_neg hlast]; exact hstart,
          by omega⟩
      · rw [if_neg hstart] at h
        obtain ⟨h1, h2, h3, h4⟩ := ih (lvl + 1) m (by omega) h
        refine ⟨by omega, h2, h3, ?_⟩
        intro j hj1 hj2
        rcases Nat.eq_or_lt_of_le hj1 with rfl | hj3
        · unfold levelCond
          rw [if_neg hlast]
          exact hstart
        · exact h4 j (by omega) hj2

theorem findLevelAux_isSome (depth maxt : Nat) (delta : Int)
    (h : delta < (maxt : Int)) :
    ∀ fuel lvl, lvl ≤ depth - 1 → depth - 1 < lvl + fuel →
      (findLevelAux depth maxt delta lvl fuel).isSome := by
  intro fuel
  induction fuel with
  | zero => intro lvl h1 h2; omega
  | succ fuel ih =>
    intro lvl h1 h2
    unfold findLevelAux
    by_cases hlast : lvl = depth - 1
    · rw [if_pos hlast, if_pos h]
      rfl
    · rw [if_neg hlast]
      by_cases hstart : delta < (level_start (lvl + 1) : Int)
      · rw [if_pos hstart]
        rfl
      · rw [if_neg hstart]
        exact ih (lvl + 1) (by omega) (by omega)

/-- Successful `calc_index` unpacked: the chosen level and slot. -/
theorem calc_index_eq_some (cfg : TimerWheelConfig) (expires : Int) (clock : Nat)
    (hD : 1 ≤ cfg.LVL_DEPTH)
    (h : expires - (clock : Int) < (WHEEL_TIMEOUT_MAX cfg : Int)) :
    ∃ m, findLevelAux cfg.LVL_DEPTH (WHEEL_TIMEOUT_MAX cfg)
        (expires - (clock : Int)) 0 cfg.LVL_DEPTH = some m ∧
      calc_index cfg expires clock =
        some (m * LVL_SIZE + py_mask (py_shr expires (LVL_CLK_SHIFT * m))) := by
  have hsome := findLevelAux_isSome cfg.LVL_DEPTH (WHEEL_TIMEOUT_MAX cfg)
    (expires - (clock : Int)) h cfg.LVL_DEPTH 0 (by omega) (by omega)
  obtain ⟨m, hm⟩ := Option.isSome_iff_exists.mp hsome
  refine ⟨m, hm, ?_⟩
  simp only [calc_index, hm, Option.map_some']

/-- C2 counterexample: `WHEEL_TIMEOUT_MAX` for HZ=1000 is 1040187392, yet
`calc_index` applied to `delta = maxTimeout` (an element of the claim's
inclusive range `[0, maxTimeout]`) reports overflow (`none`) instead of
returning a bucket index: the last-level test is the strict
`delta < WHEEL_TIMEOUT_MAX`. -/
theorem C2_counterexample :
    WHEEL_TIMEOUT_MAX (mkConfig 1000) = 1040187392 ∧
    calc_index (mkConfig 1000) ((0 : Int) + (1040187392 : Int)) 0 = none := by
  constructor <;> decide

/-- C2 (amended): for every `delta` in the half-open range
`[0, maxTimeout)` (the claim's inclusive upper endpoint overflows, see
the counterexample), `calc_index(currentTick + delta, currentTick)`
returns a bucket index in `[0, levels*slotsPerLevel)`, and the level of
the returned index is the first level `l` (scanning in increasing
order) such that `delta < levelStart[l+1]`, with the last level
compared against `maxTimeout`. -/
theorem C2_in_range_first_qualifying (hz : Int) (clock delta : Nat)
    (h : delta < WHEEL_TIMEOUT_MAX (mkConfig hz)) :
    (calc_index (mkConfig hz) ((clock : Int) + (delta : Int)) clock).isSome ∧
    (calc_index (mkConfig hz) ((clock : Int) + (delta : Int)) clock).getD 0 <
      WHEEL_SIZE (mkConfig hz) ∧
    isFirstQualifying (mkConfig hz).LVL_DEPTH (WHEEL_TIMEOUT_MAX (mkConfig hz)) (delta : Int)
      ((calc_index (mkConfig hz) ((clock : Int) + (delta : Int)) clock).getD 0 / LVL_SIZE) := by
  have hD := mkConfig_depth_pos hz
  have hdel : ((clock : Int) + (delta : Int)) - (clock : Int) = (delta : Int) := by ring
  have hlt : ((clock : Int) + (delta : Int)) - (clock : Int) <
      (WHEEL_TIMEOUT_MAX (mkConfig hz) : Int) := by
    rw [hdel]
    exact_mod_cast h
  obtain ⟨m, hm, hcalc⟩ := calc_index_eq_some (mkConfig hz) _ clock hD hlt
  rw [hdel] at hm
  obtain ⟨-, h2, h3, h4⟩ :=
    findLevelAux_eq_some (mkConfig hz).LVL_DEPTH (WHEEL_TIMEOUT_MAX (mkConfig hz)) _
      (mkConfig hz).LVL_DEPTH 0 m (by omega) hm
  have hslot : py_mask (py_shr ((clock : Int) + (delta : Int)) (LVL_CLK_SHIFT * m)) < 64 :=
    py_mask_lt _
  have hws : WHEEL_SIZE (mkConfig hz) = 64 * (mkConfig hz).LVL_DEPTH := by
    unfold WHEEL_SIZE
    rw [LVL_SIZE_eq]
  rw [hcalc]
  refine ⟨rfl, ?_, ?_⟩
  · simp only [Option.getD_some]
    rw [LVL_SIZE_eq]
    omega
  · simp only [Option.getD_some]
    have hdiv : (m * LVL_SIZE +
        py_mask (py_shr ((clock : Int) + (delta : Int)) (LVL_CLK_SHIFT * m))) / LVL_SIZE = m := by
      rw [LVL_SIZE_eq]
      omega
    rw [hdiv]
    exact ⟨by omega, h3, fun j hj => h4 j (by omega) hj⟩

/-- Witness for C2: the spec's concrete scenario, `delta = 100` ticks at
tick 0 for HZ=1000. -/
theorem C2_witness :
    (100 : Nat) < WHEEL_TIMEOUT_MAX (mkConfig 1000) ∧
    ((calc_index (mkConfig 1000) ((0 : Int) + (100 : Int)) 0).isSome ∧
     (calc_index (mkConfig 1000) ((0 : Int) + (100 : Int)) 0).getD 0 <
       WHEEL_SIZE (mkConfig 1000) ∧
     isFirstQualifying (mkConfig 1000).LVL_DEPTH (WHEEL_TIMEOUT_MAX (mkConfig 1000)) (100 : Int)
       ((calc_index (mkConfig 1000) ((0 : Int) + (100 : Int)) 0).getD 0 / LVL_SIZE)) :=
  ⟨by decide, by
    have := C2_in_range_first_qualifying 1000 0 100 (by decide)
    simpa using this⟩


/-! ## Agreement of the three index mappers (for C10) -/

theorem findLevelAux_nine (maxt : Nat) (delta : Int) :
    findLevelAux 9 maxt delta 0 9 =
      (if delta < (level_start 1 : Int) then some 0
       else if delta < (level_start 2 : Int) then some 1
       else if delta < (level_start 3 : Int) then some 2
       else if delta < (level_start 4 : Int) then some 3
       else if delta < (level_start 5 : Int) then some 4
       else if delta < (level_start 6 : Int) then some 5
       else if delta < (level_start 7 : Int) then some 6
       else if delta < (level_start 8 : Int) then some 7
       else if delta < (maxt : Int) then some 8
       else none) := rfl

theorem findLevelAux_eight (maxt : Nat) (delta : Int) :
    findLevelAux 8 maxt delta 0 8 =
      (if delta < (level_start 1 : Int) then some 0
       else if delta < (level_start 2 : Int) then some 1
       else if delta < (level_start 3 : Int) then some 2
       else if delta < (level_start 4 : Int) then some 3
       else if delta < (level_start 5 : Int) then some 4
       else if delta < (level_start 6 : Int) then some 5
       else if delta < (level_start 7 : Int) then some 6
       else if delta < (maxt : Int) then some 7
       else none) := rfl

set_option maxHeartbeats 1000000 in
theorem tti_eq_ci_of_depth9 (cfg : TimerWheelConfig) (hd : cfg.LVL_DEPTH = 9)
    (expires : Int) (clk : Nat)
    (h : expires - (clk : Int) < (WHEEL_TIMEOUT_MAX cfg : Int)) :
    time_to_index cfg expires (clk : Int) = calc_index cfg expires clk := by
  have e1 : level_start 1 = 63 := by decide
  have e2 : level_start 2 = 504 := by decide
  have e3 : level_start 3 = 4032 := by decide
  have e4 : level_start 4 = 32256 := by decide
  have e5 : level_start 5 = 258048 := by decide
  have e6 : level_start 6 = 2064384 := by decide
  have e7 : level_start 7 = 16515072 := by decide
  have e8 : level_start 8 = 132120576 := by decide
  have e9 : level_start 9 = 1056964608 := by decide
  have emax : WHEEL_TIMEOUT_MAX cfg = 1040187392 := by
    unfold WHEEL_TIMEOUT_MAX WHEEL_TIMEOUT_CUTOFF
    rw [hd]
    decide
  simp only [time_to_index, calc_index, hd, findLevelAux_nine, gt_iff_lt,
    show (8 : Nat) < 9 from by decide, true_and]
  split_ifs <;> first | rfl | (exfalso; omega)

set_option maxHeartbeats 1000000 in
theorem tti_eq_ci_of_depth8 (cfg : TimerWheelConfig) (hd : cfg.LVL_DEPTH = 8)
    (expires : Int) (clk : Nat)
    (h : expires - (clk : Int) < (WHEEL_TIMEOUT_MAX cfg : Int)) :
    time_to_index cfg expires (clk : Int) = calc_index cfg expires clk := by
  have e1 : level_start 1 = 63 := by decide
  have e2 : level_start 2 = 504 := by decide
  have e3 : level_start 3 = 4032 := by decide
  have e4 : level_start 4 = 32256 := by decide
  have e5 : level_start 5 = 258048 := by decide
  have e6 : level_start 6 = 2064384 := by decide
  have e7 : level_start 7 = 16515072 := by decide
  have e8 : level_start 8 = 132120576 := by decide
  have emax : WHEEL_TIMEOUT_MAX cfg = 130023424 := by
    unfold WHEEL_TIMEOUT_MAX WHEEL_TIMEOUT_CUTOFF
    rw [hd]
    decide
  simp only [time_to_index, calc_index, hd, findLevelAux_eight, gt_iff_lt,
    show ¬((8 : Nat) < 8) from by decide, false_and, if_false]
  split_ifs <;> first | rfl | (exfalso; omega)

/-- C10 counterexample: at `delta = maxTimeout` (HZ=1000, clock 0) the
`timer_wheel_76` and `timer_wheel_expiration` mappers return bucket
index 574 (level 8, slot 62) while the simulator's `calc_index` reports
overflow — so the three implementations do not return overflow for the
same inputs; they disagree on every delta in `[maxTimeout, cutoff)`. -/
theorem C10_counterexample :
    time_to_index (mkConfig 1000) 1040187392 0 = some 574 ∧
    exp_calc_index (mkConfig 1000) 1040187392 0 = some 574 ∧
    calc_index (mkConfig 1000) 1040187392 0 = none :=
  ⟨by decide, by decide, by decide⟩

/-- C10 (amended): `timer_wheel_76.time_to_index` and
`timer_wheel_expiration.calc_index` are identical algorithms and agree
with the simulator's `calc_index` on every input whose delta is
strictly below `maxTimeout`; for deltas in `[maxTimeout, cutoff)` the
former two return a last-level index while the simulator reports
overflow (see the counterexample). -/
theorem C10_mappers_agree_below_max (hz : Int) (expires : Int) (clk : Nat)
    (h : expires - (clk : Int) < (WHEEL_TIMEOUT_MAX (mkConfig hz) : Int)) :
    exp_calc_index (mkConfig hz) expires clk = time_to_index (mkConfig hz) expires (clk : Int) ∧
    time_to_index (mkConfig hz) expires (clk : Int) = calc_index (mkConfig hz) expires clk := by
  refine ⟨rfl, ?_⟩
  rcases mkConfig_depth hz with hd | hd
  · exact tti_eq_ci_of_depth9 _ hd expires clk h
  · exact tti_eq_ci_of_depth8 _ hd expires clk h

/-- Witness for C10 (amended) at HZ=1000, expires 100, clock 0. -/
theorem C10_witness :
    ((100 : Int) - ((0 : Nat) : Int) < (WHEEL_TIMEOUT_MAX (mkConfig 1000) : Int)) ∧
    (exp_calc_index (mkConfig 1000) 100 0 = time_to_index (mkConfig 1000) 100 ((0 : Nat) : Int) ∧
     time_to_index (mkConfig 1000) 100 ((0 : Nat) : Int) = calc_index (mkConfig 1000) 100 0) :=
  ⟨by decide, C10_mappers_agree_below_max 1000 100 0 (by decide)⟩

/-! ## Python arithmetic on non-negative values agrees with `Nat` arithmetic -/

theorem py_shr_natCast (a k : Nat) : py_shr (a : Int) k = ((a >>> k : Nat) : Int) := by
  unfold py_shr
  rw [Nat.shiftRight_eq_div_pow, Int.ofNat_ediv]
  push_cast
  ring_nf

theorem py_mask_natCast (a : Nat) : py_mask (a : Int) = a % 64 := by
  unfold py_mask
  omega

/-- For a timer whose expiry is the `Nat` tick `e`, the slot computed by
`calc_index` at level `l` is the slot the tick-advance scan computes at
clock value `e` and level `l`. -/
theorem py_slot_eq_scan_slot (e l : Nat) :
    py_mask (py_shr (e : Int) (LVL_CLK_SHIFT * l)) = (e >>> (LVL_CLK_SHIFT * l)) % LVL_SIZE := by
  rw [py_shr_natCast, py_mask_natCast, LVL_SIZE_eq]

/-! ## Past-expiry placement (for C6) -/

theorem findLevelAux_level_zero (depth maxt : Nat) (delta : Int) :
    ∀ fuel, fuel ≠ 0 → depth - 1 ≠ 0 → delta < (level_start 1 : Int) →
      findLevelAux depth maxt delta 0 fuel = some 0 := by
  intro fuel hf h0 h
  cases fuel with
  | zero => exact absurd rfl hf
  | succ fuel =>
    unfold findLevelAux
    rw [if_neg (by omega), if_pos h]

/-- C6 counterexample: with clock 10 and stale expiry 5 (HZ=1000),
`calc_index` places the timer at level-0 slot 5 — the slot of the stale
expiry — not at the slot corresponding to `currentTick` (10).  A timer
inserted in that state with stale expiry 5 does *not* fire on the next
tick-advance scan (advancing 1 tick fires nothing); it fires only at
tick 69, when the clock's level-0 digit wraps around to slot 5. -/
theorem C6_counterexample :
    calc_index (mkConfig 1000) 5 10 = some 5 ∧
    (10 : Nat) % 64 = 10 ∧
    (5 : Nat) ≠ 10 ∧
    (advanceTicks (add_timer_ticks (advanceTicks (initSim 1000) 10).state
        (-5) none false).1 1).fired = [] ∧
    (advanceTicks (add_timer_ticks (advanceTicks (initSim 1000) 10).state
        (-5) none false).1 59).fired =
      [((add_timer_ticks (advanceTicks (initSim 1000) 10).state (-5) none false).2, 69)] :=
  ⟨by decide, by decide, by decide, by decide, by decide⟩

/-- C6 (amended): for every expiry strictly earlier than the current
tick (`delta < 0`), `calc_index` places the timer in level 0 at the
slot of the *stale expiry* (`expires mod 64`, Python `expires & 63`) —
not the slot corresponding to `currentTick` — so the timer fires only
when the clock's level-0 digit wraps around to the stale expiry slot
(up to 63 ticks later), not necessarily on the very next scan. -/
theorem C6_past_expiry_stale_slot (hz : Int) (expires : Int) (clock : Nat)
    (h : expires < (clock : Int)) :
    calc_index (mkConfig hz) expires clock = some (py_mask expires) := by
  have e1 : level_start 1 = 63 := by decide
  have hD : (mkConfig hz).LVL_DEPTH - 1 ≠ 0 := by
    rcases mkConfig_depth hz with hd | hd <;> omega
  have hDne : (mkConfig hz).LVL_DEPTH ≠ 0 := by
    rcases mkConfig_depth hz with hd | hd <;> omega
  have hdelta : expires - (clock : Int) < (level_start 1 : Int) := by
    rw [e1]
    omega
  simp only [calc_index]
  rw [findLevelAux_level_zero _ _ _ _ hDne hD hdelta]
  simp [py_shr, py_mask]

/-- Witness for C6: expiry −3 at clock 0 lands at level-0 slot 61. -/
theorem C6_witness :
    ((-3 : Int) < ((0 : Nat) : Int)) ∧
    calc_index (mkConfig 1000) (-3) 0 = some (py_mask (-3)) :=
  ⟨by decide, C6_past_expiry_stale_slot 1000 (-3) 0 (by decide)⟩

/-! ## Construction with non-positive HZ (for C9) -/

/-- C9 counterexample: constructing a wheel with `HZ = 0` succeeds and
yields a fully-formed wheel object (depth 8, 512 buckets, clock 0) —
there is no invalid-configuration check anywhere in construction.  Only
the millisecond conversion `1000 // HZ` fails later (`get_tick_ms`
raises, modelled as `none`). -/
theorem C9_counterexample :
    (initSim 0).cfg.HZ = 0 ∧
    (initSim 0).cfg.LVL_DEPTH = 8 ∧
    (initSim 0).clock = 0 ∧
    WHEEL_SIZE (initSim 0).cfg = 512 ∧
    get_tick_ms (initSim 0).cfg = none :=
  ⟨by decide, by decide, by decide, by decide, by decide⟩

/-- C9 (amended): for every `HZ ≤ 0`, construction of both the
simulator and the expiration wheel succeeds (no validation is
performed): the resulting wheel stores the given `HZ`, has
`LVL_DEPTH = 8` (the `HZ ≤ 100` branch), and starts at clock 0.  The
only failure is deferred: the millisecond conversion `get_tick_ms`
fails exactly when `HZ = 0` (for negative `HZ` it silently returns a
non-positive tick duration). -/
theorem C9_construction_succeeds (hz : Int) (h : hz ≤ 0) :
    (initSim hz).cfg.HZ = hz ∧
    (initSim hz).cfg.LVL_DEPTH = 8 ∧
    (initSim hz).clock = 0 ∧
    (expInit hz).cfg.LVL_DEPTH = 8 ∧
    (get_tick_ms (initSim hz).cfg = none ↔ hz = 0) := by
  have h100 : ¬(hz > 100) := by omega
  refine ⟨rfl, ?_, rfl, ?_, ?_⟩
  · simp [initSim, mkConfig, h100]
  · simp [expInit, mkConfig, h100]
  · constructor
    · intro hnone
      by_contra hne
      simp [get_tick_ms, initSim, mkConfig, hne] at hnone
    · intro h0
      simp [get_tick_ms, initSim, mkConfig, h0]

/-- Witness for C9 at `HZ = -5`. -/
theorem C9_witness :
    ((-5 : Int) ≤ 0) ∧
    ((initSim (-5)).cfg.HZ = -5 ∧
     (initSim (-5)).cfg.LVL_DEPTH = 8 ∧
     (initSim (-5)).clock = 0 ∧
     (expInit (-5)).cfg.LVL_DEPTH = 8 ∧
     (get_tick_ms (initSim (-5)).cfg = none ↔ (-5 : Int) = 0)) :=
  ⟨by decide, C9_construction_succeeds (-5) (by decide)⟩

/-! ## Overflow policy of insertion (for C4) -/

/-- C4 counterexample: the `timer_wheel_expiration` variant REJECTS an
overflowing timeout (`add_timer` returns `None` and inserts nothing)
instead of clamping, so the clamp policy is not applied uniformly
across the repository's insert implementations. -/
theorem C4_counterexample :
    (exp_add_timer_ticks (expInit 1000) "X" 2000000000 2000000000).2 = none ∧
    ((List.range (WHEEL_SIZE (mkConfig 1000))).map fun i =>
      ((exp_add_timer_ticks (expInit 1000) "X" 2000000000 2000000000).1.vectors i).length).sum
      = 0 :=
  ⟨by decide, by decide⟩

/-- C4 (amended): the overflow policies are not uniform.  The
*simulator's* insert clamps: whenever `calc_index` reports overflow,
the stored timer's absolute expiry is exactly
`currentTick + maxTimeout` (never beyond) and it is appended to the
last representable bucket `WHEEL_SIZE - 1` (whose marker is set).  The
*expiration* variant instead rejects: its `add_timer` returns `None`
and leaves the wheel unchanged. -/
theorem C4_overflow_clamp_vs_reject (s : TimerWheelSimulator) (timeout_ticks : Int)
    (tid : Option String) (rs : Bool)
    (h : calc_index s.cfg ((s.clock : Int) + timeout_ticks) s.clock = none) :
    (add_timer_ticks s timeout_ticks tid rs).2.expires =
      (s.clock : Int) + (WHEEL_TIMEOUT_MAX s.cfg : Int) ∧
    (add_timer_ticks s timeout_ticks tid rs).2.wheel_index = WHEEL_SIZE s.cfg - 1 ∧
    (add_timer_ticks s timeout_ticks tid rs).1.vectors (WHEEL_SIZE s.cfg - 1) =
      s.vectors (WHEEL_SIZE s.cfg - 1) ++ [(add_timer_ticks s timeout_ticks tid rs).2] ∧
    (add_timer_ticks s timeout_ticks tid rs).1.pending_map (WHEEL_SIZE s.cfg - 1) = 1 ∧
    (∀ (w : ExpTimerWheel) (tid2 : String) (ms tk : Int),
      exp_calc_index w.cfg ((w.clk : Int) + tk) w.clk = none →
      exp_add_timer_ticks w tid2 ms tk = (w, none)) := by
  refine ⟨?_, ?_, ?_, ?_, ?_⟩
  · simp only [add_timer_ticks, h]
  · simp only [add_timer_ticks, h]
  · simp only [add_timer_ticks, h, if_pos]
  · simp only [add_timer_ticks, h, if_pos]
  · intro w tid2 ms tk hw
    simp only [exp_add_timer_ticks, hw]

/-- Witness for C4: an overflowing insert into a fresh HZ=1000 simulator
wheel is clamped to expiry `maxTimeout` at the last bucket. -/
theorem C4_witness :
    (calc_index (initSim 1000).cfg (((initSim 1000).clock : Int) + 2000000000)
        (initSim 1000).clock = none) ∧
    (add_timer_ticks (initSim 1000) 2000000000 none false).2.expires =
      ((initSim 1000).clock : Int) + (WHEEL_TIMEOUT_MAX (initSim 1000).cfg : Int) ∧
    (add_timer_ticks (initSim 1000) 2000000000 none false).2.wheel_index =
      WHEEL_SIZE (initSim 1000).cfg - 1 :=
  ⟨by decide,
   (C4_overflow_clamp_vs_reject (initSim 1000) 2000000000 none false (by decide)).1,
   (C4_overflow_clamp_vs_reject (initSim 1000) 2000000000 none false (by decide)).2.1⟩

/-! ## The advance return value (for C5) -/

theorem scanLevel_preserves_count (u : Nat) (r : AdvanceResult) (l : Nat)
    (hP : r.count = r.fired.length) :
    (scanLevel u r l).count = (scanLevel u r l).fired.length := by
  simp only [scanLevel]
  split
  · simp only [List.length_append, List.length_map]
    omega
  · exact hP

theorem foldl_scanLevel_preserves_count (u : Nat) (ls : List Nat) (r : AdvanceResult)
    (hP : r.count = r.fired.length) :
    (ls.foldl (scanLevel u) r).count = (ls.foldl (scanLevel u) r).fired.length := by
  induction ls generalizing r with
  | nil => exact hP
  | cons l ls ih => exact ih _ (scanLevel_preserves_count u r l hP)

theorem tickStep_preserves_count (r : AdvanceResult)
    (hP : r.count = r.fired.length) :
    (tickStep r).count = (tickStep r).fired.length := by
  unfold tickStep
  exact foldl_scanLevel_preserves_count _ _ _ hP

theorem advanceTicksAux_preserves_count :
    ∀ (n : Nat) (r : AdvanceResult), r.count = r.fired.length →
      (advanceTicksAux n r).count = (advanceTicksAux n r).fired.length := by
  intro n
  induction n with
  | zero => intro r hP; exact hP
  | succ n ih => intro r hP; exact ih _ (tickStep_preserves_count r hP)

/-- C5 counterexample: the `timer_wheel_expiration` variant's
`advance_time` returns the number of timers *still pending* afterwards,
not the number fired: with one 1-tick timer, advancing 1 tick fires
exactly one timer yet the call returns 0. -/
theorem C5_counterexample :
    (exp_advance_ticks (exp_add_timer_ticks (expInit 1000) "A" 1 1).1 1).ret = 0 ∧
    (exp_advance_ticks (exp_add_timer_ticks (expInit 1000) "A" 1 1).1 1).fired.length = 1 :=
  ⟨by decide, by decide⟩

/-- C5 (amended): the *simulator's* `advance_time` returns
`expired_in_this_advance`, which equals the total number of timer
callbacks fired during the whole advance; the *expiration* variant's
`advance_time` instead returns the count of timers remaining pending
(see the counterexample). -/
theorem C5_simulator_returns_fired_count (s : TimerWheelSimulator) (n : Nat) :
    (advanceTicks s n).count = (advanceTicks s n).fired.length :=
  advanceTicksAux_preserves_count n _ rfl

/-! ## The non-empty-marker invariant (for C8) -/

/-- The bucket/marker invariant: `pending_map[i]` is set iff bucket `i`
is non-empty. -/
def MarkerInv (s : TimerWheelSimulator) : Prop :=
  ∀ i, s.pending_map i ≠ 0 ↔ s.vectors i ≠ []

theorem MarkerInv_insert (s : TimerWheelSimulator) (idx : Nat) (tm : Timer)
    (hInv : MarkerInv s) :
    MarkerInv { s with
      vectors := fun j => if j = idx then s.vectors idx ++ [tm] else s.vectors j
      pending_map := fun j => if j = idx then 1 else s.pending_map j
      timers_added := s.timers_added + 1 } := by
  intro i
  dsimp only
  by_cases hi : i = idx
  · subst hi
    simp
  · simp only [if_neg hi]
    exact hInv i

theorem add_timer_ticks_preserves_MarkerInv (s : TimerWheelSimulator)
    (timeout_ticks : Int) (timer_id : Option String) (rs : Bool)
    (hInv : MarkerInv s) :
    MarkerInv (add_timer_ticks s timeout_ticks timer_id rs).1 := by
  simp only [add_timer_ticks]
  cases hc : calc_index s.cfg ((s.clock : Int) + timeout_ticks) s.clock with
  | none => exact MarkerInv_insert s _ _ hInv
  | some idx => exact MarkerInv_insert s _ _ hInv

theorem scanLevel_preserves_MarkerInv (u : Nat) (r : AdvanceResult) (l : Nat)
    (hInv : MarkerInv r.state) : MarkerInv (scanLevel u r l).state := by
  simp only [scanLevel]
  split
  next hc =>
    intro i
    dsimp only
    by_cases hi : i = l * LVL_SIZE + u >>> (LVL_CLK_SHIFT * l) % LVL_SIZE
    · subst hi
      rw [if_pos rfl, if_pos rfl]
      split
      next hkeep => simp [hkeep]
      next hkeep =>
        constructor
        · intro _
          exact hkeep
        · intro _
          exact hc.1
    · rw [if_neg hi, if_neg hi]
      exact hInv i
  next => exact hInv

theorem foldl_scanLevel_preserves_MarkerInv (u : Nat) (ls : List Nat)
    (r : AdvanceResult) (hInv : MarkerInv r.state) :
    MarkerInv ((ls.foldl (scanLevel u) r).state) := by
  induction ls generalizing r with
  | nil => exact hInv
  | cons l ls ih => exact ih _ (scanLevel_preserves_MarkerInv u r l hInv)

theorem tickStep_preserves_MarkerInv (r : AdvanceResult)
    (hInv : MarkerInv r.state) : MarkerInv (tickStep r).state := by
  unfold tickStep
  exact foldl_scanLevel_preserves_MarkerInv _ _ _ hInv

theorem advanceTicksAux_preserves_MarkerInv :
    ∀ (n : Nat) (r : AdvanceResult), MarkerInv r.state →
      MarkerInv (advanceTicksAux n r).state := by
  intro n
  induction n with
  | zero => intro r hInv; exact hInv
  | succ n ih => intro r hInv; exact ih _ (tickStep_preserves_MarkerInv r hInv)

theorem advanceTicks_preserves_MarkerInv (s : TimerWheelSimulator) (n : Nat)
    (hInv : MarkerInv s) : MarkerInv (advanceTicks s n).state :=
  advanceTicksAux_preserves_MarkerInv n _ hInv

/-- The states reachable from a freshly constructed simulator wheel by
any sequence of inserts (`add_timer`, at tick granularity, covering the
millisecond interface) and advances (`advance_time`). -/
inductive Reachable : TimerWheelSimulator → Prop
  | init (hz : Int) : Reachable (initSim hz)
  | add (s : TimerWheelSimulator) (timeout_ticks : Int) (timer_id : Option String)
      (rs : Bool) : Reachable s → Reachable (add_timer_ticks s timeout_ticks timer_id rs).1
  | adv (s : TimerWheelSimulator) (n : Nat) : Reachable s →
      Reachable (advanceTicks s n).state

/-- C8: in every state reachable from a freshly constructed wheel by
inserts and advances, and for every bucket index `i`, the non-empty
marker `pending_map[i]` is set iff `vectors[i]` is non-empty. -/
theorem C8_marker_invariant (s : TimerWheelSimulator) (h : Reachable s) :
    ∀ i, s.pending_map i ≠ 0 ↔ s.vectors i ≠ [] := by
  induction h with
  | init hz => intro i; simp [initSim]
  | add s tk tid rs _ ih => exact add_timer_ticks_preserves_MarkerInv s tk tid rs ih
  | adv s n _ ih => exact advanceTicks_preserves_MarkerInv s n ih

/-- Witness for C8: after one insert and a 3-tick advance on a fresh
HZ=1000 wheel, the marker of bucket 5 agrees with its occupancy. -/
theorem C8_witness :
    (advanceTicks (add_timer_ticks (initSim 1000) 5 none false).1 3).state.pending_map 5 ≠ 0 ↔
    (advanceTicks (add_timer_ticks (initSim 1000) 5 none false).1 3).state.vectors 5 ≠ [] :=
  C8_marker_invariant _
    (Reachable.adv _ 3 (Reachable.add _ 5 none false (Reachable.init 1000))) 5

/-! ## Conservation of timers across advances (for C3) -/

/-- How many times timer `tm` occurs across all buckets of the wheel. -/
def occBuckets (tm : Timer) (s : TimerWheelSimulator) : Nat :=
  ((List.range (WHEEL_SIZE s.cfg)).map fun i => (s.vectors i).count tm).sum

/-- How many times timer `tm` occurs among the fired callbacks. -/
def firedOcc (tm : Timer) (l : List (Timer × Nat)) : Nat :=
  (l.map Prod.fst).count tm

theorem firedOcc_append (tm : Timer) (a b : List (Timer × Nat)) :
    firedOcc tm (a ++ b) = firedOcc tm a + firedOcc tm b := by
  unfold firedOcc
  rw [List.map_append, List.count_append]

theorem firedOcc_append_map (tm : Timer) (a : List (Timer × Nat)) (b : List Timer)
    (u : Nat) :
    firedOcc tm (a ++ b.map fun t => (t, u)) = firedOcc tm a + b.count tm := by
  unfold firedOcc
  rw [List.map_append, List.count_append, List.map_map]
  have hcomp : (Prod.fst ∘ fun t : Timer => (t, u)) = id := rfl
  rw [hcomp, List.map_id]

theorem count_filter_split (tm : Timer) (l : List Timer) (p : Timer → Bool) :
    (l.filter p).count tm + (l.filter fun t => !p t).count tm = l.count tm := by
  induction l with
  | nil => rfl
  | cons t l ih =>
    by_cases h : p t <;>
      simp [List.filter_cons, h, List.count_cons] <;>
      omega

theorem sumRange_update (n : Nat) (f : Nat → Nat) (idx : Nat) (v : Nat) (h : idx < n) :
    ((List.range n).map fun j => if j = idx then v else f j).sum + f idx =
      ((List.range n).map f).sum + v := by
  induction n with
  | zero => omega
  | succ n ih =>
    rw [List.range_succ]
    simp only [List.map_append, List.sum_append, List.map_cons, List.map_nil,
      List.sum_cons, List.sum_nil]
    by_cases hi : idx = n
    · subst hi
      have hmap : ((List.range idx).map fun j => if j = idx then v else f j) =
          (List.range idx).map f := by
        apply List.map_congr_left
        intro j hj
        rw [if_neg (by simpa using Nat.ne_of_lt (List.mem_range.mp hj))]
      rw [hmap, if_pos rfl]
      omega
    · have := ih (by omega)
      rw [if_neg (by omega : ¬(n = idx))]
      omega

theorem scanLevel_cfg (u : Nat) (r : AdvanceResult) (l : Nat) :
    (scanLevel u r l).state.cfg = r.state.cfg := by
  simp only [scanLevel]
  split <;> rfl

theorem scanLevel_conserves (tm : Timer) (u : Nat) (r : AdvanceResult) (l : Nat)
    (hl : l < r.state.cfg.LVL_DEPTH) :
    occBuckets tm (scanLevel u r l).state + firedOcc tm (scanLevel u r l).fired =
      occBuckets tm r.state + firedOcc tm r.fired := by
  have hb : u >>> (LVL_CLK_SHIFT * l) % LVL_SIZE < LVL_SIZE := Nat.mod_lt _ (by decide)
  have hidx : l * LVL_SIZE + u >>> (LVL_CLK_SHIFT * l) % LVL_SIZE < WHEEL_SIZE r.state.cfg := by
    unfold WHEEL_SIZE
    rw [LVL_SIZE_eq] at hb ⊢
    omega
  simp only [scanLevel]
  split
  next hc =>
    rw [firedOcc_append_map]
    unfold occBuckets
    dsimp only
    have hsplit := count_filter_split tm
      (r.state.vectors (l * LVL_SIZE + u >>> (LVL_CLK_SHIFT * l) % LVL_SIZE))
      (fun t => decide (t.expires ≤ (u : Int)))
    have hupd := sumRange_update (WHEEL_SIZE r.state.cfg)
      (fun j => (r.state.vectors j).count tm)
      (l * LVL_SIZE + u >>> (LVL_CLK_SHIFT * l) % LVL_SIZE)
      (((r.state.vectors (l * LVL_SIZE + u >>> (LVL_CLK_SHIFT * l) % LVL_SIZE)).filter
        fun t => !decide (t.expires ≤ (u : Int))).count tm) hidx
    dsimp only at hupd
    have hmap : ((List.range (WHEEL_SIZE r.state.cfg)).map fun j =>
        ((if j = l * LVL_SIZE + u >>> (LVL_CLK_SHIFT * l) % LVL_SIZE then
          (r.state.vectors (l * LVL_SIZE + u >>> (LVL_CLK_SHIFT * l) % LVL_SIZE)).filter
            (fun t => !decide (t.expires ≤ (u : Int)))
        else r.state.vectors j)).count tm) =
        ((List.range (WHEEL_SIZE r.state.cfg)).map fun j =>
          if j = l * LVL_SIZE + u >>> (LVL_CLK_SHIFT * l) % LVL_SIZE then
            ((r.state.vectors (l * LVL_SIZE + u >>> (LVL_CLK_SHIFT * l) % LVL_SIZE)).filter
              (fun t => !decide (t.expires ≤ (u : Int)))).count tm
          else (r.state.vectors j).count tm) := by
      apply List.map_congr_left
      intro j _
      split <;> rfl
    rw [hmap]
    omega
  next => rfl

theorem foldl_scanLevel_cfg (u : Nat) (ls : List Nat) (r : AdvanceResult) :
    ((ls.foldl (scanLevel u) r).state.cfg) = r.state.cfg := by
  induction ls generalizing r with
  | nil => rfl
  | cons l ls ih => rw [List.foldl_cons, ih, scanLevel_cfg]

theorem foldl_scanLevel_conserves (tm : Timer) (u : Nat) (ls : List Nat)
    (r : AdvanceResult) (hls : ∀ l ∈ ls, l < r.state.cfg.LVL_DEPTH) :
    occBuckets tm ((ls.foldl (scanLevel u) r).state) +
        firedOcc tm ((ls.foldl (scanLevel u) r).fired) =
      occBuckets tm r.state + firedOcc tm r.fired := by
  induction ls generalizing r with
  | nil => rfl
  | cons l ls ih =>
    rw [List.foldl_cons]
    have hstep : ∀ l2 ∈ ls, l2 < (scanLevel u r l).state.cfg.LVL_DEPTH := by
      intro l2 hl2
      rw [scanLevel_cfg]
      exact hls l2 (List.mem_cons_of_mem l hl2)
    rw [ih _ hstep]
    exact scanLevel_conserves tm u r l (hls l (List.mem_cons_self l ls))

theorem tickStep_cfg (r : AdvanceResult) : (tickStep r).state.cfg = r.state.cfg := by
  unfold tickStep
  rw [foldl_scanLevel_cfg]

theorem tickStep_conserves (tm : Timer) (r : AdvanceResult) :
    occBuckets tm (tickStep r).state + firedOcc tm (tickStep r).fired =
      occBuckets tm r.state + firedOcc tm r.fired := by
  unfold tickStep
  rw [foldl_scanLevel_conserves tm _ _ _ (by intro l hl; exact List.mem_range.mp hl)]
  rfl

theorem advanceTicksAux_conserves (tm : Timer) :
    ∀ (n : Nat) (r : AdvanceResult),
      occBuckets tm (advanceTicksAux n r).state + firedOcc tm (advanceTicksAux n r).fired =
        occBuckets tm r.state + firedOcc tm r.fired := by
  intro n
  induction n with
  | zero => intro r; rfl
  | succ n ih =>
    intro r
    rw [show advanceTicksAux (n + 1) r = advanceTicksAux n (tickStep r) from rfl, ih,
      tickStep_conserves]

/-- A sequence of `advance_time` calls (at tick granularity), collecting
every callback invocation across the whole sequence. -/
def runAdvances (s : TimerWheelSimulator) : List Nat → TimerWheelSimulator × List (Timer × Nat)
  | [] => (s, [])
  | n :: ns =>
    let r := advanceTicks s n
    let p := runAdvances r.state ns
    (p.1, r.fired ++ p.2)

theorem runAdvances_conserves (tm : Timer) (s : TimerWheelSimulator) (ns : List Nat) :
    occBuckets tm (runAdvances s ns).1 + firedOcc tm (runAdvances s ns).2 =
      occBuckets tm s := by
  induction ns generalizing s with
  | nil =>
    simp only [runAdvances]
    rw [show firedOcc tm ([] : List (Timer × Nat)) = 0 from rfl]
    omega
  | cons n ns ih =>
    simp only [runAdvances]
    rw [firedOcc_append]
    have h1 := advanceTicksAux_conserves tm n
      { state := s, fired := [], errors := [], count := 0 }
    have h2 := ih (advanceTicks s n).state
    unfold advanceTicks at *
    rw [show firedOcc tm ([] : List (Timer × Nat)) = 0 from rfl] at h1
    dsimp only at h1
    omega

/-- C3: for every timer and every sequence of advance calls on the
wheel, that timer's callback is invoked at most once in total, provided
the timer occurs at most once in the wheel (which holds for every timer
object the Python code creates: each `add_timer` call appends one fresh
`Timer` object to one bucket).  A timer removed from its bucket on
firing is never re-inserted, so it cannot fire again in any later tick
or advance call. -/
theorem C3_no_double_fire (s : TimerWheelSimulator) (tm : Timer) (ns : List Nat)
    (h : occBuckets tm s ≤ 1) :
    firedOcc tm (runAdvances s ns).2 ≤ 1 := by
  have := runAdvances_conserves tm s ns
  omega

/-- Witness for C3: one timer inserted into a fresh HZ=1000 wheel, then
advanced by 3 and by 10 ticks; it fires at most once in total. -/
theorem C3_witness :
    occBuckets (add_timer_ticks (initSim 1000) 5 none false).2
      (add_timer_ticks (initSim 1000) 5 none false).1 ≤ 1 ∧
    firedOcc (add_timer_ticks (initSim 1000) 5 none false).2
      (runAdvances (add_timer_ticks (initSim 1000) 5 none false).1 [3, 10]).2 ≤ 1 :=
  ⟨by decide, C3_no_double_fire _ _ [3, 10] (by decide)⟩

/-! ## Handler-failure isolation (for C7) -/

/-- Replace every stored timer's opaque callback behaviour by `φ`
(which may change the `raises` flag arbitrarily) while leaving expiries
untouched. -/
def mapTimers (φ : Timer → Timer) (s : TimerWheelSimulator) : TimerWheelSimulator :=
  { s with vectors := fun j => (s.vectors j).map φ }

theorem filter_map_expired (φ : Timer → Timer) (hφ : ∀ t, (φ t).expires = t.expires)
    (u : Nat) (lst : List Timer) :
    (lst.map φ).filter (fun t => decide (t.expires ≤ (u : Int))) =
      (lst.filter fun t => decide (t.expires ≤ (u : Int))).map φ := by
  rw [List.filter_map]
  congr 1
  apply List.filter_congr
  intro t _
  simp only [Function.comp_apply, hφ t]

theorem filter_map_kept (φ : Timer → Timer) (hφ : ∀ t, (φ t).expires = t.expires)
    (u : Nat) (lst : List Timer) :
    (lst.map φ).filter (fun t => !decide (t.expires ≤ (u : Int))) =
      (lst.filter fun t => !decide (t.expires ≤ (u : Int))).map φ := by
  rw [List.filter_map]
  congr 1
  apply List.filter_congr
  intro t _
  simp only [Function.comp_apply, hφ t]

theorem scanLevel_mapTimers (φ : Timer → Timer) (hφ : ∀ t, (φ t).expires = t.expires)
    (u : Nat) (r rφ : AdvanceResult) (l : Nat)
    (hstate : rφ.state = mapTimers φ r.state)
    (hfired : rφ.fired = r.fired.map fun p => (φ p.1, p.2))
    (hcount : rφ.count = r.count) :
    (scanLevel u rφ l).state = mapTimers φ (scanLevel u r l).state ∧
    (scanLevel u rφ l).fired = (scanLevel u r l).fired.map (fun p => (φ p.1, p.2)) ∧
    (scanLevel u rφ l).count = (scanLevel u r l).count := by
  simp only [scanLevel, hstate, hfired, hcount, mapTimers]
  by_cases hc : r.state.pending_map (l * LVL_SIZE + u >>> (LVL_CLK_SHIFT * l) % LVL_SIZE) ≠ 0 ∧
      r.state.vectors (l * LVL_SIZE + u >>> (LVL_CLK_SHIFT * l) % LVL_SIZE) ≠ []
  · have hcφ : r.state.pending_map (l * LVL_SIZE + u >>> (LVL_CLK_SHIFT * l) % LVL_SIZE) ≠ 0 ∧
        (r.state.vectors (l * LVL_SIZE + u >>> (LVL_CLK_SHIFT * l) % LVL_SIZE)).map φ ≠ [] := by
      refine ⟨hc.1, ?_⟩
      simp only [ne_eq, List.map_eq_nil_iff]
      exact hc.2
    rw [if_pos hcφ, if_pos hc]
    refine ⟨?_, ?_, ?_⟩
    · apply TimerWheelSimulator.ext <;> dsimp only
      · funext j
        rw [apply_ite (List.map φ)]
        by_cases hj : j = l * LVL_SIZE + u >>> (LVL_CLK_SHIFT * l) % LVL_SIZE
        · rw [if_pos hj, if_pos hj, filter_map_kept φ hφ]
        · rw [if_neg hj, if_neg hj]
      · funext j
        by_cases hj : j = l * LVL_SIZE + u >>> (LVL_CLK_SHIFT * l) % LVL_SIZE
        · rw [if_pos hj, if_pos hj]
          simp only [filter_map_kept φ hφ, List.map_eq_nil_iff]
        · rw [if_neg hj, if_neg hj]
      · rw [filter_map_expired φ hφ, List.length_map]
    · dsimp only
      rw [filter_map_expired φ hφ, List.map_append, List.map_map, List.map_map]
      rfl
    · dsimp only
      rw [filter_map_expired φ hφ, List.length_map]
  · have hcφ : ¬(r.state.pending_map (l * LVL_SIZE + u >>> (LVL_CLK_SHIFT * l) % LVL_SIZE) ≠ 0 ∧
        (r.state.vectors (l * LVL_SIZE + u >>> (LVL_CLK_SHIFT * l) % LVL_SIZE)).map φ ≠ []) := by
      intro hcon
      refine hc ⟨hcon.1, ?_⟩
      intro hnil
      exact hcon.2 (by rw [hnil]; rfl)
    rw [if_neg hcφ, if_neg hc]
    exact ⟨hstate.trans (by simp only [mapTimers]), hfired, hcount⟩

theorem foldl_scanLevel_mapTimers (φ : Timer → Timer)
    (hφ : ∀ t, (φ t).expires = t.expires) (u : Nat) (ls : List Nat) :
    ∀ (r rφ : AdvanceResult), rφ.state = mapTimers φ r.state →
      rφ.fired = r.fired.map (fun p => (φ p.1, p.2)) → rφ.count = r.count →
      ((ls.foldl (scanLevel u) rφ).state = mapTimers φ ((ls.foldl (scanLevel u) r).state) ∧
       (ls.foldl (scanLevel u) rφ).fired =
         ((ls.foldl (scanLevel u) r).fired).map (fun p => (φ p.1, p.2)) ∧
       (ls.foldl (scanLevel u) rφ).count = (ls.foldl (scanLevel u) r).count) := by
  induction ls with
  | nil => intro r rφ h1 h2 h3; exact ⟨h1, h2, h3⟩
  | cons l ls ih =>
    intro r rφ h1 h2 h3
    rw [List.foldl_cons, List.foldl_cons]
    obtain ⟨g1, g2, g3⟩ := scanLevel_mapTimers φ hφ u r rφ l h1 h2 h3
    exact ih _ _ g1 g2 g3

theorem tickStep_mapTimers (φ : Timer → Timer)
    (hφ : ∀ t, (φ t).expires = t.expires) (r rφ : AdvanceResult)
    (h1 : rφ.state = mapTimers φ r.state)
    (h2 : rφ.fired = r.fired.map (fun p => (φ p.1, p.2)))
    (h3 : rφ.count = r.count) :
    (tickStep rφ).state = mapTimers φ (tickStep r).state ∧
    (tickStep rφ).fired = (tickStep r).fired.map (fun p => (φ p.1, p.2)) ∧
    (tickStep rφ).count = (tickStep r).count := by
  unfold tickStep
  have hclock : rφ.state.clock = r.state.clock := by rw [h1]; rfl
  have hcfg : rφ.state.cfg = r.state.cfg := by rw [h1]; rfl
  rw [hclock, hcfg]
  refine foldl_scanLevel_mapTimers φ hφ _ _ _ _ ?_ h2 h3
  show { rφ.state with clock := r.state.clock + 1 } =
    mapTimers φ { r.state with clock := r.state.clock + 1 }
  rw [h1]
  rfl

theorem advanceTicksAux_mapTimers (φ : Timer → Timer)
    (hφ : ∀ t, (φ t).expires = t.expires) :
    ∀ (n : Nat) (r rφ : AdvanceResult), rφ.state = mapTimers φ r.state →
      rφ.fired = r.fired.map (fun p => (φ p.1, p.2)) → rφ.count = r.count →
      ((advanceTicksAux n rφ).state = mapTimers φ (advanceTicksAux n r).state ∧
       (advanceTicksAux n rφ).fired =
         (advanceTicksAux n r).fired.map (fun p => (φ p.1, p.2)) ∧
       (advanceTicksAux n rφ).count = (advanceTicksAux n r).count) := by
  intro n
  induction n with
  | zero => intro r rφ h1 h2 h3; exact ⟨h1, h2, h3⟩
  | succ n ih =>
    intro r rφ h1 h2 h3
    obtain ⟨g1, g2, g3⟩ := tickStep_mapTimers φ hφ r rφ h1 h2 h3
    exact ih _ _ g1 g2 g3

theorem scanLevel_errors (u : Nat) (r : AdvanceResult) (l : Nat)
    (hE : r.errors = r.fired.filter fun p => p.1.raises) :
    (scanLevel u r l).errors = (scanLevel u r l).fired.filter fun p => p.1.raises := by
  simp only [scanLevel]
  split
  next =>
    dsimp only
    rw [hE, List.filter_append]
    congr 1
    rw [List.filter_map]
    rfl
  next => exact hE

theorem foldl_scanLevel_errors (u : Nat) (ls : List Nat) :
    ∀ (r : AdvanceResult), r.errors = (r.fired.filter fun p => p.1.raises) →
      (ls.foldl (scanLevel u) r).errors =
        ((ls.foldl (scanLevel u) r).fired.filter fun p => p.1.raises) := by
  induction ls with
  | nil => intro r hE; exact hE
  | cons l ls ih =>
    intro r hE
    rw [List.foldl_cons]
    exact ih _ (scanLevel_errors u r l hE)

theorem advanceTicksAux_errors :
    ∀ (n : Nat) (r : AdvanceResult), r.errors = (r.fired.filter fun p => p.1.raises) →
      (advanceTicksAux n r).errors =
        ((advanceTicksAux n r).fired.filter fun p => p.1.raises) := by
  intro n
  induction n with
  | zero => intro r hE; exact hE
  | succ n ih =>
    intro r hE
    exact ih _ (by unfold tickStep; exact foldl_scanLevel_errors _ _ _ hE)

/-- C7: a timer callback raising an exception is caught per timer and
does not affect which timers fire.  Formally: modifying every stored
timer's callback behaviour by an arbitrary `φ` that preserves expiries
(in particular, flipping any subset of `raises` flags) leaves the fired
sequence (up to `φ`) and the fired count of any advance unchanged — so
every other due timer in the same bucket, later buckets and later ticks
still fires; and the errors reported by an advance are exactly its
fired timers whose callback raised (the advance itself always runs to
completion, returning them alongside the count). -/
theorem C7_handler_failure_isolation (s : TimerWheelSimulator) (n : Nat)
    (φ : Timer → Timer) (hφ : ∀ t, (φ t).expires = t.expires) :
    (advanceTicks (mapTimers φ s) n).fired =
      (advanceTicks s n).fired.map (fun p => (φ p.1, p.2)) ∧
    (advanceTicks (mapTimers φ s) n).count = (advanceTicks s n).count ∧
    (advanceTicks s n).errors = ((advanceTicks s n).fired.filter fun p => p.1.raises) := by
  obtain ⟨g1, g2, g3⟩ := advanceTicksAux_mapTimers φ hφ n
    { state := s, fired := [], errors := [], count := 0 }
    { state := mapTimers φ s, fired := [], errors := [], count := 0 }
    rfl rfl rfl
  exact ⟨g2, g3, advanceTicksAux_errors n _ rfl⟩

/-- Witness for C7: one due timer whose callback is made to raise
(`raises := true` on every timer); the advance fires the same count. -/
theorem C7_witness :
    (advanceTicks (mapTimers (fun t => { t with raises := true })
        (add_timer_ticks (initSim 1000) 1 none false).1) 1).fired =
      (advanceTicks (add_timer_ticks (initSim 1000) 1 none false).1 1).fired.map
        (fun p => ((fun t => { t with raises := true }) p.1, p.2)) ∧
    (advanceTicks (mapTimers (fun t => { t with raises := true })
        (add_timer_ticks (initSim 1000) 1 none false).1) 1).count =
      (advanceTicks (add_timer_ticks (initSim 1000) 1 none false).1 1).count ∧
    (advanceTicks (add_timer_ticks (initSim 1000) 1 none false).1 1).errors =
      ((advanceTicks (add_timer_ticks (initSim 1000) 1 none false).1 1).fired.filter
        fun p => p.1.raises) :=
  C7_handler_failure_isolation (add_timer_ticks (initSim 1000) 1 none false).1 1
    (fun t => { t with raises := true }) (fun _ => rfl)

/-! ## Single-timer round trip (for C1) -/

/-- A wheel at clock `c` holding exactly one timer, in the bucket the
timer's `wheel_index` records. -/
def singleState (cfg : TimerWheelConfig) (c : Nat) (tm : Timer) (a b d : Nat) :
    TimerWheelSimulator :=
  { cfg := cfg
    clock := c
    vectors := fun j => if j = tm.wheel_index then [tm] else []
    pending_map := fun j => if j = tm.wheel_index then 1 else 0
    timers_added := a
    timers_expired := b
    timers_cancelled := d }

/-- A wheel at clock `c` with every bucket empty. -/
def emptiedState (cfg : TimerWheelConfig) (c : Nat) (a b d : Nat) :
    TimerWheelSimulator :=
  { cfg := cfg
    clock := c
    vectors := fun _ => []
    pending_map := fun _ => 0
    timers_added := a
    timers_expired := b
    timers_cancelled := d }

theorem scanLevel_single_other (cfg : TimerWheelConfig) (c : Nat) (tm : Timer)
    (a b d : Nat) (F E : List (Timer × Nat)) (k u l : Nat)
    (hidx : l * LVL_SIZE + u >>> (LVL_CLK_SHIFT * l) % LVL_SIZE ≠ tm.wheel_index) :
    scanLevel u ⟨singleState cfg c tm a b d, F, E, k⟩ l =
      ⟨singleState cfg c tm a b d, F, E, k⟩ := by
  simp only [scanLevel]
  rw [if_neg]
  intro hcon
  apply hcon.2
  show (singleState cfg c tm a b d).vectors _ = []
  simp only [singleState]
  rw [if_neg hidx]

theorem scanLevel_single_keep (cfg : TimerWheelConfig) (c : Nat) (tm : Timer)
    (a b d : Nat) (F E : List (Timer × Nat)) (k u l : Nat)
    (hu : ¬(tm.expires ≤ (u : Int))) :
    scanLevel u ⟨singleState cfg c tm a b d, F, E, k⟩ l =
      ⟨singleState cfg c tm a b d, F, E, k⟩ := by
  by_cases hidx : l * LVL_SIZE + u >>> (LVL_CLK_SHIFT * l) % LVL_SIZE = tm.wheel_index
  · have hvec : (singleState cfg c tm a b d).vectors
        (l * LVL_SIZE + u >>> (LVL_CLK_SHIFT * l) % LVL_SIZE) = [tm] := by
      simp only [singleState]
      rw [if_pos hidx]
    have hpend : (singleState cfg c tm a b d).pending_map
        (l * LVL_SIZE + u >>> (LVL_CLK_SHIFT * l) % LVL_SIZE) = 1 := by
      simp only [singleState]
      rw [if_pos hidx]
    have hexp : ([tm].filter fun t => decide (t.expires ≤ (u : Int))) = [] := by
      simp [hu]
    have hkeep : ([tm].filter fun t => !decide (t.expires ≤ (u : Int))) = [tm] := by
      simp [hu]
    simp only [scanLevel]
    rw [if_pos ⟨by rw [hpend]; exact one_ne_zero, by rw [hvec]; simp⟩]
    apply AdvanceResult.ext <;> dsimp only
    · apply TimerWheelSimulator.ext <;> dsimp only
      · funext j
        by_cases hj : j = l * LVL_SIZE + u >>> (LVL_CLK_SHIFT * l) % LVL_SIZE
        · rw [if_pos hj, hvec, hkeep, hj, hidx]
          simp [singleState]
        · rw [if_neg hj]
      · funext j
        by_cases hj : j = l * LVL_SIZE + u >>> (LVL_CLK_SHIFT * l) % LVL_SIZE
        · rw [if_pos hj, hvec, hkeep]
          rw [if_neg (by simp), hj]
        · rw [if_neg hj]
      · rw [hvec, hexp]
        rfl
    · rw [hvec, hexp]
      simp
    · rw [hvec, hexp]
      simp
    · rw [hvec, hexp]
      rfl
  · exact scanLevel_single_other cfg c tm a b d F E k u l hidx

theorem scanLevel_emptied (cfg : TimerWheelConfig) (c : Nat) (a b d : Nat)
    (F E : List (Timer × Nat)) (k u l : Nat) :
    scanLevel u ⟨emptiedState cfg c a b d, F, E, k⟩ l =
      ⟨emptiedState cfg c a b d, F, E, k⟩ := by
  simp only [scanLevel]
  rw [if_neg]
  intro hcon
  exact hcon.1 rfl

theorem scanLevel_single_fire (cfg : TimerWheelConfig) (c : Nat) (tm : Timer)
    (a b d : Nat) (F E : List (Timer × Nat)) (k u l : Nat)
    (hidx : l * LVL_SIZE + u >>> (LVL_CLK_SHIFT * l) % LVL_SIZE = tm.wheel_index)
    (hu : tm.expires ≤ (u : Int)) :
    scanLevel u ⟨singleState cfg c tm a b d, F, E, k⟩ l =
      ⟨emptiedState cfg c a (b + 1) d, F ++ [(tm, u)],
       E ++ (([tm].filter fun t => t.raises).map fun t => (t, u)), k + 1⟩ := by
  have hvec : (singleState cfg c tm a b d).vectors
      (l * LVL_SIZE + u >>> (LVL_CLK_SHIFT * l) % LVL_SIZE) = [tm] := by
    simp only [singleState]
    rw [if_pos hidx]
  have hpend : (singleState cfg c tm a b d).pending_map
      (l * LVL_SIZE + u >>> (LVL_CLK_SHIFT * l) % LVL_SIZE) = 1 := by
    simp only [singleState]
    rw [if_pos hidx]
  have hexp : ([tm].filter fun t => decide (t.expires ≤ (u : Int))) = [tm] := by
    simp [hu]
  have hkeep : ([tm].filter fun t => !decide (t.expires ≤ (u : Int))) = [] := by
    simp [hu]
  simp only [scanLevel]
  rw [if_pos ⟨by rw [hpend]; exact one_ne_zero, by rw [hvec]; simp⟩]
  apply AdvanceResult.ext <;> dsimp only
  · apply TimerWheelSimulator.ext <;> dsimp only
    · rfl
    · rfl
    · funext j
      by_cases hj : j = l * LVL_SIZE + u >>> (LVL_CLK_SHIFT * l) % LVL_SIZE
      · rw [if_pos hj, hvec, hkeep]
        rfl
      · rw [if_neg hj]
        show (singleState cfg c tm a b d).vectors j = (emptiedState cfg c a (b + 1) d).vectors j
        simp only [singleState, emptiedState]
        rw [if_neg (by rw [← hidx]; exact hj)]
    · funext j
      by_cases hj : j = l * LVL_SIZE + u >>> (LVL_CLK_SHIFT * l) % LVL_SIZE
      · rw [if_pos hj, hvec, hkeep]
        rw [if_pos rfl]
        rfl
      · rw [if_neg hj]
        show (singleState cfg c tm a b d).pending_map j =
          (emptiedState cfg c a (b + 1) d).pending_map j
        simp only [singleState, emptiedState]
        rw [if_neg (by rw [← hidx]; exact hj)]
    · rfl
    · rw [hvec, hexp]
      show b + [tm].length = b + 1
      rfl
    · rfl
  · rw [hvec, hexp]
    rfl
  · rw [hvec, hexp]
  · rw [hvec, hexp]
    rfl

theorem foldl_single_keep (cfg : TimerWheelConfig) (c : Nat) (tm : Timer)
    (a b d : Nat) (F E : List (Timer × Nat)) (k u : Nat) (ls : List Nat)
    (hu : ¬(tm.expires ≤ (u : Int))) :
    ls.foldl (scanLevel u) ⟨singleState cfg c tm a b d, F, E, k⟩ =
      ⟨singleState cfg c tm a b d, F, E, k⟩ := by
  induction ls with
  | nil => rfl
  | cons l ls ih =>
    rw [List.foldl_cons, scanLevel_single_keep cfg c tm a b d F E k u l hu]
    exact ih

theorem foldl_emptied (cfg : TimerWheelConfig) (c : Nat) (a b d : Nat)
    (F E : List (Timer × Nat)) (k u : Nat) (ls : List Nat) :
    ls.foldl (scanLevel u) ⟨emptiedState cfg c a b d, F, E, k⟩ =
      ⟨emptiedState cfg c a b d, F, E, k⟩ := by
  induction ls with
  | nil => rfl
  | cons l ls ih =>
    rw [List.foldl_cons, scanLevel_emptied cfg c a b d F E k u l]
    exact ih

theorem foldl_single_fire (cfg : TimerWheelConfig) (c : Nat) (tm : Timer)
    (a b d : Nat) (F E : List (Timer × Nat)) (k u : Nat) (l0 : Nat) (ls : List Nat)
    (hmem : l0 ∈ ls)
    (hhit : l0 * LVL_SIZE + u >>> (LVL_CLK_SHIFT * l0) % LVL_SIZE = tm.wheel_index)
    (hmiss : ∀ l, l ≠ l0 → l * LVL_SIZE + u >>> (LVL_CLK_SHIFT * l) % LVL_SIZE ≠ tm.wheel_index)
    (hu : tm.expires ≤ (u : Int)) :
    ls.foldl (scanLevel u) ⟨singleState cfg c tm a b d, F, E, k⟩ =
      ⟨emptiedState cfg c a (b + 1) d, F ++ [(tm, u)],
       E ++ (([tm].filter fun t => t.raises).map fun t => (t, u)), k + 1⟩ := by
  induction ls with
  | nil => cases hmem
  | cons l ls ih =>
    rw [List.foldl_cons]
    by_cases hl : l = l0
    · subst hl
      rw [scanLevel_single_fire cfg c tm a b d F E k u l hhit hu]
      exact foldl_emptied cfg c a (b + 1) d _ _ _ u ls
    · rw [scanLevel_single_other cfg c tm a b d F E k u l (hmiss l hl)]
      refine ih ?_
      rcases List.mem_cons.mp hmem with h | h
      · exact absurd h.symm hl
      · exact h

theorem tickStep_single_keep (cfg : TimerWheelConfig) (c : Nat) (tm : Timer)
    (a b d : Nat) (F E : List (Timer × Nat)) (k : Nat)
    (hu : ¬(tm.expires ≤ ((c + 1 : Nat) : Int))) :
    tickStep ⟨singleState cfg c tm a b d, F, E, k⟩ =
      ⟨singleState cfg (c + 1) tm a b d, F, E, k⟩ := by
  show (List.range cfg.LVL_DEPTH).foldl (scanLevel (c + 1))
    ⟨singleState cfg (c + 1) tm a b d, F, E, k⟩ = _
  exact foldl_single_keep cfg (c + 1) tm a b d F E k (c + 1) _ hu

theorem tickStep_single_fire (cfg : TimerWheelConfig) (c : Nat) (tm : Timer)
    (a b d : Nat) (F E : List (Timer × Nat)) (k : Nat) (l0 : Nat)
    (hl0 : l0 < cfg.LVL_DEPTH)
    (hhit : l0 * LVL_SIZE + (c + 1) >>> (LVL_CLK_SHIFT * l0) % LVL_SIZE = tm.wheel_index)
    (hmiss : ∀ l, l ≠ l0 →
      l * LVL_SIZE + (c + 1) >>> (LVL_CLK_SHIFT * l) % LVL_SIZE ≠ tm.wheel_index)
    (hu : tm.expires ≤ ((c + 1 : Nat) : Int)) :
    tickStep ⟨singleState cfg c tm a b d, F, E, k⟩ =
      ⟨emptiedState cfg (c + 1) a (b + 1) d, F ++ [(tm, c + 1)],
       E ++ (([tm].filter fun t => t.raises).map fun t => (t, c + 1)), k + 1⟩ := by
  show (List.range cfg.LVL_DEPTH).foldl (scanLevel (c + 1))
    ⟨singleState cfg (c + 1) tm a b d, F, E, k⟩ = _
  exact foldl_single_fire cfg (c + 1) tm a b d F E k (c + 1) l0 _
    (List.mem_range.mpr hl0) hhit hmiss hu

theorem advanceTicksAux_single_keep (cfg : TimerWheelConfig) (tm : Timer)
    (a b d : Nat) :
    ∀ (n c : Nat) (F E : List (Timer × Nat)) (k : Nat),
      ((c + n : Nat) : Int) < tm.expires →
      advanceTicksAux n ⟨singleState cfg c tm a b d, F, E, k⟩ =
        ⟨singleState cfg (c + n) tm a b d, F, E, k⟩ := by
  intro n
  induction n with
  | zero => intro c F E k _; rfl
  | succ n ih =>
    intro c F E k h
    have hu : ¬(tm.expires ≤ ((c + 1 : Nat) : Int)) := by
      push_cast at h ⊢
      omega
    rw [show advanceTicksAux (n + 1) ⟨singleState cfg c tm a b d, F, E, k⟩ =
        advanceTicksAux n (tickStep ⟨singleState cfg c tm a b d, F, E, k⟩) from rfl,
      tickStep_single_keep cfg c tm a b d F E k hu]
    have := ih (c + 1) F E k (by push_cast at h ⊢; omega)
    rw [this, show c + 1 + n = c + (n + 1) from by omega]

theorem add_timer_ticks_single (hz : Int) (c t : Nat) (tid : Option String) (rs : Bool)
    (idx : Nat)
    (hcalc : calc_index (mkConfig hz) ((c : Int) + (t : Int)) c = some idx) :
    add_timer_ticks { initSim hz with clock := c } (t : Int) tid rs =
      (singleState (mkConfig hz) c
        { id := tid.getD ("timer_" ++ toString 0), expires := (c : Int) + (t : Int)
          raises := rs, wheel_index := idx } 1 0 0,
       { id := tid.getD ("timer_" ++ toString 0), expires := (c : Int) + (t : Int)
         raises := rs, wheel_index := idx }) := by
  simp only [add_timer_ticks, initSim, hcalc]
  constructor

theorem advanceTicksAux_add (mm nn : Nat) :
    ∀ r : AdvanceResult,
      advanceTicksAux (mm + nn) r = advanceTicksAux nn (advanceTicksAux mm r) := by
  induction mm with
  | zero =>
    intro r
    rw [show (0 : Nat) + nn = nn from by omega]
    rfl
  | succ mm ih =>
    intro r
    rw [show mm + 1 + nn = (mm + nn) + 1 from by omega]
    rw [show advanceTicksAux ((mm + nn) + 1) r =
      advanceTicksAux (mm + nn) (tickStep r) from rfl]
    rw [ih (tickStep r)]
    rfl

theorem advanceTicks_single_exact (hz : Int) (c t : Nat) (tm : Timer) (m : Nat)
    (hmD : m < (mkConfig hz).LVL_DEPTH)
    (hexp : tm.expires = ((c + t : Nat) : Int))
    (hwi : tm.wheel_index = m * LVL_SIZE + (c + t) >>> (LVL_CLK_SHIFT * m) % LVL_SIZE)
    (ht : 1 ≤ t) :
    advanceTicks (singleState (mkConfig hz) c tm 1 0 0) t =
      ⟨emptiedState (mkConfig hz) (c + t) 1 1 0, [(tm, c + t)],
       ([tm].filter fun x => x.raises).map fun x => (x, c + t), 1⟩ := by
  obtain ⟨t', rfl⟩ : ∃ t', t = t' + 1 := ⟨t - 1, by omega⟩
  have hhit : m * LVL_SIZE + (c + t' + 1) >>> (LVL_CLK_SHIFT * m) % LVL_SIZE =
      tm.wheel_index := by
    rw [hwi]
    rfl
  have hmiss : ∀ l, l ≠ m →
      l * LVL_SIZE + (c + t' + 1) >>> (LVL_CLK_SHIFT * l) % LVL_SIZE ≠ tm.wheel_index := by
    intro l hl
    have hb1 : (c + t' + 1) >>> (LVL_CLK_SHIFT * l) % LVL_SIZE < LVL_SIZE :=
      Nat.mod_lt _ (by decide)
    have hb2 : (c + (t' + 1)) >>> (LVL_CLK_SHIFT * m) % LVL_SIZE < LVL_SIZE :=
      Nat.mod_lt _ (by decide)
    rw [hwi]
    rw [LVL_SIZE_eq] at hb1 hb2 ⊢
    omega
  have hu : tm.expires ≤ ((c + t' + 1 : Nat) : Int) := by
    rw [hexp]
    push_cast
    omega
  unfold advanceTicks
  rw [advanceTicksAux_add t' 1]
  rw [advanceTicksAux_single_keep (mkConfig hz) tm 1 0 0 t' c [] [] 0
    (by rw [hexp]; push_cast; omega)]
  show tickStep ⟨singleState (mkConfig hz) (c + t') tm 1 0 0, [], [], 0⟩ = _
  rw [tickStep_single_fire (mkConfig hz) (c + t') tm 1 0 0 [] [] 0 m hmD hhit hmiss hu]
  simp only [List.nil_append]
  exact AdvanceResult.ext rfl rfl rfl rfl

/-- The round trip on a fresh wheel, with the exact fired list: a timer
with timeout `1 ≤ t < maxTimeout` inserted into an empty wheel at tick
`c` is the unique callback fired by an exact `t`-tick advance, at
firing tick `c + t`; a shorter advance fires nothing and leaves the
bucket holding exactly that timer. -/
theorem round_trip_fresh_wheel (hz : Int) (c t : Nat) (tid : Option String) (rs : Bool)
    (h1 : 1 ≤ t) (h2 : t < WHEEL_TIMEOUT_MAX (mkConfig hz)) :
    (advanceTicks (add_timer_ticks { initSim hz with clock := c } (t : Int) tid rs).1 t).fired =
      [((add_timer_ticks { initSim hz with clock := c } (t : Int) tid rs).2, c + t)] ∧
    (advanceTicks (add_timer_ticks { initSim hz with clock := c } (t : Int) tid rs).1 t).count = 1 ∧
    ∀ u, u < t →
      (advanceTicks (add_timer_ticks { initSim hz with clock := c } (t : Int) tid rs).1 u).fired
        = [] ∧
      (advanceTicks (add_timer_ticks { initSim hz with clock := c } (t : Int) tid rs).1
          u).state.vectors
          ((add_timer_ticks { initSim hz with clock := c } (t : Int) tid rs).2.wheel_index) =
        [(add_timer_ticks { initSim hz with clock := c } (t : Int) tid rs).2] := by
  have hD := mkConfig_depth_pos hz
  have hlt : ((c : Int) + (t : Int)) - (c : Int) < (WHEEL_TIMEOUT_MAX (mkConfig hz) : Int) := by
    omega
  obtain ⟨m, hm, hcalc⟩ := calc_index_eq_some (mkConfig hz) ((c : Int) + (t : Int)) c hD hlt
  have hdel : ((c : Int) + (t : Int)) - (c : Int) = (t : Int) := by ring
  rw [hdel] at hm
  obtain ⟨-, hm2, -, -⟩ := findLevelAux_eq_some (mkConfig hz).LVL_DEPTH
    (WHEEL_TIMEOUT_MAX (mkConfig hz)) _ (mkConfig hz).LVL_DEPTH 0 m (by omega) hm
  have hmD : m < (mkConfig hz).LVL_DEPTH := by omega
  rw [add_timer_ticks_single hz c t tid rs _ hcalc]
  dsimp only
  set tm : Timer :=
    { id := tid.getD ("timer_" ++ toString 0), expires := (c : Int) + (t : Int)
      raises := rs
      wheel_index :=
        m * LVL_SIZE + py_mask (py_shr ((c : Int) + (t : Int)) (LVL_CLK_SHIFT * m)) }
    with htm
  have hexp : tm.expires = ((c + t : Nat) : Int) := by
    rw [htm]
    push_cast
    ring
  have hwi : tm.wheel_index = m * LVL_SIZE + (c + t) >>> (LVL_CLK_SHIFT * m) % LVL_SIZE := by
    rw [htm]
    dsimp only
    rw [show ((c : Int) + (t : Int)) = (((c + t : Nat)) : Int) from by push_cast; ring,
      py_slot_eq_scan_slot]
  have hfull := advanceTicks_single_exact hz c t tm m hmD hexp hwi h1
  refine ⟨?_, ?_, ?_⟩
  · rw [hfull]
  · rw [hfull]
  · intro u hu
    have hkeep := advanceTicksAux_single_keep (mkConfig hz) tm 1 0 0 u c [] [] 0
      (by rw [hexp]; push_cast; omega)
    constructor
    · show (advanceTicksAux u ⟨singleState (mkConfig hz) c tm 1 0 0, [], [], 0⟩).fired = []
      rw [hkeep]
    · show (advanceTicksAux u
          ⟨singleState (mkConfig hz) c tm 1 0 0, [], [], 0⟩).state.vectors tm.wheel_index = [tm]
      rw [hkeep]
      show (if tm.wheel_index = tm.wheel_index then [tm] else []) = [tm]
      rw [if_pos rfl]

theorem tickStep_single_nohit (cfg : TimerWheelConfig) (c : Nat) (tm : Timer)
    (a b d : Nat) (F E : List (Timer × Nat)) (k : Nat)
    (h : ∀ l, l * LVL_SIZE + (c + 1) >>> (LVL_CLK_SHIFT * l) % LVL_SIZE ≠ tm.wheel_index) :
    tickStep ⟨singleState cfg c tm a b d, F, E, k⟩ =
      ⟨singleState cfg (c + 1) tm a b d, F, E, k⟩ := by
  show (List.range cfg.LVL_DEPTH).foldl (scanLevel (c + 1))
    ⟨singleState cfg (c + 1) tm a b d, F, E, k⟩ = _
  have hfold : ∀ ls : List Nat, ls.foldl (scanLevel (c + 1))
      ⟨singleState cfg (c + 1) tm a b d, F, E, k⟩ =
      ⟨singleState cfg (c + 1) tm a b d, F, E, k⟩ := by
    intro ls
    induction ls with
    | nil => rfl
    | cons l ls ih =>
      rw [List.foldl_cons, scanLevel_single_other cfg (c + 1) tm a b d F E k (c + 1) l (h l)]
      exact ih
  exact hfold _

theorem advanceTicksAux_single_nohit (cfg : TimerWheelConfig) (tm : Timer)
    (a b d : Nat) :
    ∀ (n c : Nat) (F E : List (Timer × Nat)) (k : Nat),
      (∀ u, c < u → u ≤ c + n →
        ∀ l, l * LVL_SIZE + u >>> (LVL_CLK_SHIFT * l) % LVL_SIZE ≠ tm.wheel_index) →
      advanceTicksAux n ⟨singleState cfg c tm a b d, F, E, k⟩ =
        ⟨singleState cfg (c + n) tm a b d, F, E, k⟩ := by
  intro n
  induction n with
  | zero => intro c F E k _; rfl
  | succ n ih =>
    intro c F E k h
    rw [show advanceTicksAux (n + 1) ⟨singleState cfg c tm a b d, F, E, k⟩ =
      advanceTicksAux n (tickStep ⟨singleState cfg c tm a b d, F, E, k⟩) from rfl,
      tickStep_single_nohit cfg c tm a b d F E k (h (c + 1) (by omega) (by omega))]
    have := ih (c + 1) F E k (fun u h1 h2 l => h u (by omega) (by omega) l)
    rw [this, show c + 1 + n = c + (n + 1) from by omega]

theorem add_timer_ticks_single_overflow (hz : Int) (c : Nat) (tk : Int)
    (tid : Option String) (rs : Bool)
    (hnone : calc_index (mkConfig hz) ((c : Int) + tk) c = none) :
    add_timer_ticks { initSim hz with clock := c } tk tid rs =
      (singleState (mkConfig hz) c
        { id := tid.getD ("timer_" ++ toString 0)
          expires := (c : Int) + (WHEEL_TIMEOUT_MAX (mkConfig hz) : Int)
          raises := rs, wheel_index := WHEEL_SIZE (mkConfig hz) - 1 } 1 0 0,
       { id := tid.getD ("timer_" ++ toString 0)
         expires := (c : Int) + (WHEEL_TIMEOUT_MAX (mkConfig hz) : Int)
         raises := rs, wheel_index := WHEEL_SIZE (mkConfig hz) - 1 }) := by
  simp only [add_timer_ticks, initSim, hnone]
  constructor

/-- C1 counterexample: both endpoints of the claim's timeout range
`0 ≤ t ≤ maxTimeout` fail on the code (HZ=1000, insertion tick 0).
With `t = 0`, advancing by exactly `t = 0` ticks runs zero scan
iterations, so the timer does not fire at all (the claim demands
exactly one firing).  With `t = maxTimeout = 1040187392`, `calc_index`
reports overflow, `add_timer` clamps the timer into the last bucket
(level 8, slot 63), and advancing by exactly `t` ticks never scans that
bucket (the level-8 digit of every tick `≤ t` is at most 62), so the
timer again fires zero times. -/
theorem C1_counterexample :
    ((advanceTicks (add_timer_ticks (initSim 1000) (0 : Int) none false).1 0).fired = [] ∧
     (advanceTicks (add_timer_ticks (initSim 1000) (0 : Int) none false).1 0).count = 0) ∧
    WHEEL_TIMEOUT_MAX (mkConfig 1000) = 1040187392 ∧
    (advanceTicks (add_timer_ticks (initSim 1000) (1040187392 : Int) none false).1
      1040187392).fired = [] ∧
    (advanceTicks (add_timer_ticks (initSim 1000) (1040187392 : Int) none false).1
      1040187392).count = 0 := by
  have hnone : calc_index (mkConfig 1000) (((0 : Nat) : Int) + (1040187392 : Int)) 0 = none := by
    decide
  have hyp : ∀ u, (0 : Nat) < u → u ≤ 0 + 1040187392 →
      ∀ l, l * LVL_SIZE + u >>> (LVL_CLK_SHIFT * l) % LVL_SIZE ≠
        ({ id := Option.getD none ("timer_" ++ toString 0)
           expires := ((0 : Nat) : Int) + (WHEEL_TIMEOUT_MAX (mkConfig 1000) : Int)
           raises := false, wheel_index := WHEEL_SIZE (mkConfig 1000) - 1 } : Timer).wheel_index := by
    intro u hu1 hu2 l
    show l * LVL_SIZE + u >>> (LVL_CLK_SHIFT * l) % LVL_SIZE ≠ 575
    by_cases hl : l = 8
    · subst hl
      have hdiv : u >>> (LVL_CLK_SHIFT * 8) = u / 16777216 := by
        rw [Nat.shiftRight_eq_div_pow]
        norm_num [LVL_CLK_SHIFT]
      rw [LVL_SIZE_eq, hdiv]
      omega
    · have hb : u >>> (LVL_CLK_SHIFT * l) % LVL_SIZE < LVL_SIZE := Nat.mod_lt _ (by decide)
      rw [LVL_SIZE_eq] at hb ⊢
      omega
  have hrun := advanceTicksAux_single_nohit (mkConfig 1000)
    ({ id := Option.getD none ("timer_" ++ toString 0)
       expires := ((0 : Nat) : Int) + (WHEEL_TIMEOUT_MAX (mkConfig 1000) : Int)
       raises := false, wheel_index := WHEEL_SIZE (mkConfig 1000) - 1 } : Timer) 1 0 0
    1040187392 0 [] [] 0 hyp
  refine ⟨⟨by decide, by decide⟩, by decide, ?_, ?_⟩
  · show (advanceTicks (add_timer_ticks { initSim 1000 with clock := 0 } (1040187392 : Int)
        none false).1 1040187392).fired = []
    rw [add_timer_ticks_single_overflow 1000 0 1040187392 none false hnone]
    dsimp only
    unfold advanceTicks
    rw [hrun]
  · show (advanceTicks (add_timer_ticks { initSim 1000 with clock := 0 } (1040187392 : Int)
        none false).1 1040187392).count = 0
    rw [add_timer_ticks_single_overflow 1000 0 1040187392 none false hnone]
    dsimp only
    unfold advanceTicks
    rw [hrun]

theorem round_trip_fresh_wheel_instance :
    ((1 : Nat) ≤ 100 ∧ (100 : Nat) < WHEEL_TIMEOUT_MAX (mkConfig 1000)) ∧
    (advanceTicks (add_timer_ticks { initSim 1000 with clock := 0 } (100 : Int) none
        false).1 100).fired =
      [((add_timer_ticks { initSim 1000 with clock := 0 } (100 : Int) none false).2, 0 + 100)] ∧
    (advanceTicks (add_timer_ticks { initSim 1000 with clock := 0 } (100 : Int) none
        false).1 100).count = 1 ∧
    (advanceTicks (add_timer_ticks { initSim 1000 with clock := 0 } (100 : Int) none
        false).1 99).fired = [] ∧
    (advanceTicks (add_timer_ticks { initSim 1000 with clock := 0 } (100 : Int) none
        false).1 99).state.vectors
        ((add_timer_ticks { initSim 1000 with clock := 0 } (100 : Int) none false).2.wheel_index) =
      [(add_timer_ticks { initSim 1000 with clock := 0 } (100 : Int) none false).2] :=
  ⟨⟨by decide, by decide⟩,
   (round_trip_fresh_wheel 1000 0 100 none false (by decide) (by decide)).1,
   (round_trip_fresh_wheel 1000 0 100 none false (by decide) (by decide)).2.1,
   ((round_trip_fresh_wheel 1000 0 100 none false (by decide) (by decide)).2.2 99 (by decide)).1,
   ((round_trip_fresh_wheel 1000 0 100 none false (by decide) (by decide)).2.2 99 (by decide)).2⟩

/-! ## Round trip on an arbitrary wheel (strengthening C1) -/

theorem scanLevel_clock (u : Nat) (r : AdvanceResult) (l : Nat) :
    (scanLevel u r l).state.clock = r.state.clock := by
  simp only [scanLevel]
  split <;> rfl

theorem foldl_scanLevel_clock (u : Nat) (ls : List Nat) (r : AdvanceResult) :
    ((ls.foldl (scanLevel u) r).state.clock) = r.state.clock := by
  induction ls generalizing r with
  | nil => rfl
  | cons l ls ih => rw [List.foldl_cons, ih, scanLevel_clock]

theorem tickStep_clock (r : AdvanceResult) :
    (tickStep r).state.clock = r.state.clock + 1 := by
  unfold tickStep
  rw [foldl_scanLevel_clock]

theorem advanceTicksAux_clock :
    ∀ (n : Nat) (r : AdvanceResult),
      (advanceTicksAux n r).state.clock = r.state.clock + n := by
  intro n
  induction n with
  | zero => intro r; rfl
  | succ n ih =>
    intro r
    rw [show advanceTicksAux (n + 1) r = advanceTicksAux n (tickStep r) from rfl,
      ih, tickStep_clock]
    omega

theorem advanceTicksAux_cfg :
    ∀ (n : Nat) (r : AdvanceResult),
      (advanceTicksAux n r).state.cfg = r.state.cfg := by
  intro n
  induction n with
  | zero => intro r; rfl
  | succ n ih =>
    intro r
    rw [show advanceTicksAux (n + 1) r = advanceTicksAux n (tickStep r) from rfl,
      ih, tickStep_cfg]

theorem scanLevel_untouched (u : Nat) (r : AdvanceResult) (l i : Nat)
    (hidx : l * LVL_SIZE + u >>> (LVL_CLK_SHIFT * l) % LVL_SIZE ≠ i) :
    (scanLevel u r l).state.vectors i = r.state.vectors i ∧
    (scanLevel u r l).state.pending_map i = r.state.pending_map i := by
  simp only [scanLevel]
  split
  · constructor <;> exact if_neg fun h => hidx h.symm
  · exact ⟨rfl, rfl⟩

theorem scanLevel_keeps_timer (tm : Timer) (u : Nat) (r : AdvanceResult) (l : Nat)
    (hne : ¬(tm.expires ≤ (u : Int)))
    (hmem : tm ∈ r.state.vectors tm.wheel_index)
    (hpend : r.state.pending_map tm.wheel_index ≠ 0) :
    tm ∈ (scanLevel u r l).state.vectors tm.wheel_index ∧
    (scanLevel u r l).state.pending_map tm.wheel_index ≠ 0 := by
  by_cases hidx : l * LVL_SIZE + u >>> (LVL_CLK_SHIFT * l) % LVL_SIZE = tm.wheel_index
  · have hcond : r.state.pending_map (l * LVL_SIZE + u >>> (LVL_CLK_SHIFT * l) % LVL_SIZE) ≠ 0 ∧
        r.state.vectors (l * LVL_SIZE + u >>> (LVL_CLK_SHIFT * l) % LVL_SIZE) ≠ [] := by
      rw [hidx]
      exact ⟨hpend, List.ne_nil_of_mem hmem⟩
    have hkm : tm ∈ (r.state.vectors
        (l * LVL_SIZE + u >>> (LVL_CLK_SHIFT * l) % LVL_SIZE)).filter
        (fun t => !decide (t.expires ≤ (u : Int))) := by
      rw [hidx]
      exact List.mem_filter.mpr ⟨hmem, by simp [hne]⟩
    simp only [scanLevel]
    rw [if_pos hcond]
    dsimp only
    rw [if_pos hidx.symm, if_pos hidx.symm]
    refine ⟨hkm, ?_⟩
    rw [if_neg (List.ne_nil_of_mem hkm)]
    exact hpend
  · have := scanLevel_untouched u r l tm.wheel_index hidx
    rw [this.1, this.2]
    exact ⟨hmem, hpend⟩

theorem foldl_keeps_timer (tm : Timer) (u : Nat) (ls : List Nat)
    (hne : ¬(tm.expires ≤ (u : Int))) :
    ∀ r : AdvanceResult, tm ∈ r.state.vectors tm.wheel_index →
      r.state.pending_map tm.wheel_index ≠ 0 →
      tm ∈ ((ls.foldl (scanLevel u) r).state.vectors tm.wheel_index) ∧
      ((ls.foldl (scanLevel u) r).state.pending_map tm.wheel_index) ≠ 0 := by
  induction ls with
  | nil => intro r hmem hpend; exact ⟨hmem, hpend⟩
  | cons l ls ih =>
    intro r hmem hpend
    rw [List.foldl_cons]
    obtain ⟨h1, h2⟩ := scanLevel_keeps_timer tm u r l hne hmem hpend
    exact ih _ h1 h2

theorem tickStep_keeps_timer (tm : Timer) (r : AdvanceResult)
    (hne : ¬(tm.expires ≤ ((r.state.clock + 1 : Nat) : Int)))
    (hmem : tm ∈ r.state.vectors tm.wheel_index)
    (hpend : r.state.pending_map tm.wheel_index ≠ 0) :
    tm ∈ (tickStep r).state.vectors tm.wheel_index ∧
    (tickStep r).state.pending_map tm.wheel_index ≠ 0 := by
  unfold tickStep
  exact foldl_keeps_timer tm _ _ hne _ hmem hpend

theorem advanceTicksAux_keeps_timer (tm : Timer) :
    ∀ (n : Nat) (r : AdvanceResult),
      ((r.state.clock + n : Nat) : Int) < tm.expires →
      tm ∈ r.state.vectors tm.wheel_index →
      r.state.pending_map tm.wheel_index ≠ 0 →
      tm ∈ ((advanceTicksAux n r).state.vectors tm.wheel_index) ∧
      ((advanceTicksAux n r).state.pending_map tm.wheel_index) ≠ 0 := by
  intro n
  induction n with
  | zero => intro r _ hmem hpend; exact ⟨hmem, hpend⟩
  | succ n ih =>
    intro r h hmem hpend
    have hne : ¬(tm.expires ≤ ((r.state.clock + 1 : Nat) : Int)) := by
      push_cast at h ⊢
      omega
    obtain ⟨h1, h2⟩ := tickStep_keeps_timer tm r hne hmem hpend
    rw [show advanceTicksAux (n + 1) r = advanceTicksAux n (tickStep r) from rfl]
    exact ih (tickStep r) (by rw [tickStep_clock]; push_cast at h ⊢; omega) h1 h2

theorem scanLevel_fired_sound (u : Nat) (r : AdvanceResult) (l : Nat) :
    ∀ p ∈ (scanLevel u r l).fired,
      p ∈ r.fired ∨ (p.2 = u ∧ p.1.expires ≤ (u : Int)) := by
  simp only [scanLevel]
  split
  · intro p hp
    rcases List.mem_append.mp hp with h | h
    · exact Or.inl h
    · right
      obtain ⟨x, hx, hpx⟩ := List.mem_map.mp h
      have hdue : x.expires ≤ (u : Int) := by
        have h2 := List.of_mem_filter hx
        simpa using h2
      rw [← hpx]
      exact ⟨rfl, hdue⟩
  · intro p hp
    exact Or.inl hp

theorem foldl_fired_sound (u : Nat) (ls : List Nat) :
    ∀ (r : AdvanceResult), ∀ p ∈ ((ls.foldl (scanLevel u) r).fired),
      p ∈ r.fired ∨ (p.2 = u ∧ p.1.expires ≤ (u : Int)) := by
  induction ls with
  | nil => intro r p hp; exact Or.inl hp
  | cons l ls ih =>
    intro r p hp
    rw [List.foldl_cons] at hp
    rcases ih _ p hp with h | h
    · exact scanLevel_fired_sound u r l p h
    · exact Or.inr h

theorem tickStep_fired_sound (r : AdvanceResult) :
    ∀ p ∈ (tickStep r).fired,
      p ∈ r.fired ∨ (p.2 = r.state.clock + 1 ∧ p.1.expires ≤ ((r.state.clock + 1 : Nat) : Int)) := by
  intro p hp
  unfold tickStep at hp
  rcases foldl_fired_sound (r.state.clock + 1) (List.range r.state.cfg.LVL_DEPTH) _ p hp with
    h | h
  · exact Or.inl h
  · exact Or.inr h

theorem advanceTicksAux_fired_sound :
    ∀ (n : Nat) (r : AdvanceResult), ∀ p ∈ ((advanceTicksAux n r).fired),
      p ∈ r.fired ∨
        (r.state.clock < p.2 ∧ p.2 ≤ r.state.clock + n ∧ p.1.expires ≤ ((p.2 : Nat) : Int)) := by
  intro n
  induction n with
  | zero => intro r p hp; exact Or.inl hp
  | succ n ih =>
    intro r p hp
    rw [show advanceTicksAux (n + 1) r = advanceTicksAux n (tickStep r) from rfl] at hp
    rcases ih (tickStep r) p hp with h | h
    · rcases tickStep_fired_sound r p h with h2 | h2
      · exact Or.inl h2
      · right
        refine ⟨by omega, by omega, ?_⟩
        rw [h2.1]
        exact h2.2
    · right
      rw [tickStep_clock] at h
      exact ⟨by omega, by omega, h.2.2⟩

theorem scanLevel_fired_mono (u : Nat) (r : AdvanceResult) (l : Nat)
    (p : Timer × Nat) (hp : p ∈ r.fired) : p ∈ (scanLevel u r l).fired := by
  simp only [scanLevel]
  split
  · exact List.mem_append_left _ hp
  · exact hp

theorem foldl_fired_mono (u : Nat) (ls : List Nat) :
    ∀ (r : AdvanceResult) (p : Timer × Nat), p ∈ r.fired →
      p ∈ ((ls.foldl (scanLevel u) r).fired) := by
  induction ls with
  | nil => intro r p hp; exact hp
  | cons l ls ih =>
    intro r p hp
    rw [List.foldl_cons]
    exact ih _ p (scanLevel_fired_mono u r l p hp)

theorem scanLevel_fires_due (tm : Timer) (u : Nat) (r : AdvanceResult) (l : Nat)
    (hidx : l * LVL_SIZE + u >>> (LVL_CLK_SHIFT * l) % LVL_SIZE = tm.wheel_index)
    (hmem : tm ∈ r.state.vectors tm.wheel_index)
    (hpend : r.state.pending_map tm.wheel_index ≠ 0)
    (hdue : tm.expires ≤ (u : Int)) :
    (tm, u) ∈ (scanLevel u r l).fired := by
  have hcond : r.state.pending_map (l * LVL_SIZE + u >>> (LVL_CLK_SHIFT * l) % LVL_SIZE) ≠ 0 ∧
      r.state.vectors (l * LVL_SIZE + u >>> (LVL_CLK_SHIFT * l) % LVL_SIZE) ≠ [] := by
    rw [hidx]
    exact ⟨hpend, List.ne_nil_of_mem hmem⟩
  have hexp : tm ∈ (r.state.vectors
      (l * LVL_SIZE + u >>> (LVL_CLK_SHIFT * l) % LVL_SIZE)).filter
      (fun t => decide (t.expires ≤ (u : Int))) := by
    rw [hidx]
    exact List.mem_filter.mpr ⟨hmem, decide_eq_true hdue⟩
  simp only [scanLevel]
  rw [if_pos hcond]
  exact List.mem_append_right _ (List.mem_map.mpr ⟨tm, hexp, rfl⟩)

theorem foldl_fires_due (tm : Timer) (u : Nat) (l0 : Nat)
    (hidx : l0 * LVL_SIZE + u >>> (LVL_CLK_SHIFT * l0) % LVL_SIZE = tm.wheel_index)
    (hdue : tm.expires ≤ (u : Int)) :
    ∀ (ls : List Nat), l0 ∈ ls →
      ∀ r : AdvanceResult, tm ∈ r.state.vectors tm.wheel_index →
        r.state.pending_map tm.wheel_index ≠ 0 →
        (tm, u) ∈ ((ls.foldl (scanLevel u) r).fired) := by
  intro ls
  induction ls with
  | nil => intro h; exact absurd h (List.not_mem_nil l0)
  | cons l ls ih =>
    intro hmem0 r hmem hpend
    rw [List.foldl_cons]
    by_cases hl : l = l0
    · subst hl
      exact foldl_fired_mono u ls _ _ (scanLevel_fires_due tm u r l hidx hmem hpend hdue)
    · have h64 : LVL_SIZE = 64 := LVL_SIZE_eq
      have hne : l * LVL_SIZE + u >>> (LVL_CLK_SHIFT * l) % LVL_SIZE ≠ tm.wheel_index := by
        rw [← hidx, h64]
        have h1 : u >>> (LVL_CLK_SHIFT * l) % 64 < 64 := Nat.mod_lt _ (by omega)
        have h2 : u >>> (LVL_CLK_SHIFT * l0) % 64 < 64 := Nat.mod_lt _ (by omega)
        omega
      obtain ⟨h1, h2⟩ := scanLevel_untouched u r l tm.wheel_index hne
      have hl0mem : l0 ∈ ls := by
        rcases List.mem_cons.mp hmem0 with h | h
        · exact absurd h.symm hl
        · exact h
      exact ih hl0mem _ (by rw [h1]; exact hmem) (by rw [h2]; exact hpend)

theorem tickStep_fires_due (tm : Timer) (r : AdvanceResult) (l0 : Nat)
    (hlt : l0 < r.state.cfg.LVL_DEPTH)
    (hidx : l0 * LVL_SIZE + (r.state.clock + 1) >>> (LVL_CLK_SHIFT * l0) % LVL_SIZE =
      tm.wheel_index)
    (hmem : tm ∈ r.state.vectors tm.wheel_index)
    (hpend : r.state.pending_map tm.wheel_index ≠ 0)
    (hdue : tm.expires ≤ ((r.state.clock + 1 : Nat) : Int)) :
    (tm, r.state.clock + 1) ∈ (tickStep r).fired := by
  unfold tickStep
  exact foldl_fires_due tm (r.state.clock + 1) l0 hidx hdue _
    (List.mem_range.mpr hlt) _ hmem hpend

/-- `add_timer_ticks` unpacked when `calc_index` succeeds: the created
timer's fields and the state update (append to bucket `idx`, set its
pending marker, keep clock and config). -/
theorem add_timer_ticks_spec (s : TimerWheelSimulator) (tk : Int) (tid : Option String)
    (rs : Bool) (idx : Nat)
    (hcalc : calc_index s.cfg ((s.clock : Int) + tk) s.clock = some idx) :
    (add_timer_ticks s tk tid rs).2 =
      { id := tid.getD ("timer_" ++ toString s.timers_added),
        expires := (s.clock : Int) + tk, raises := rs, wheel_index := idx } ∧
    (add_timer_ticks s tk tid rs).1.vectors =
      (fun j => if j = idx then s.vectors idx ++ [(add_timer_ticks s tk tid rs).2]
        else s.vectors j) ∧
    (add_timer_ticks s tk tid rs).1.pending_map =
      (fun j => if j = idx then 1 else s.pending_map j) ∧
    (add_timer_ticks s tk tid rs).1.clock = s.clock ∧
    (add_timer_ticks s tk tid rs).1.cfg = s.cfg := by
  simp only [add_timer_ticks, hcalc]
  and_intros <;> first | rfl | trivial

/-- Inserting a timer raises its occurrence count in the wheel by one. -/
theorem occBuckets_add_timer (s : TimerWheelSimulator) (tk : Int) (tid : Option String)
    (rs : Bool) (idx : Nat)
    (hcalc : calc_index s.cfg ((s.clock : Int) + tk) s.clock = some idx)
    (hlt : idx < WHEEL_SIZE s.cfg) :
    occBuckets (add_timer_ticks s tk tid rs).2 (add_timer_ticks s tk tid rs).1 =
      occBuckets (add_timer_ticks s tk tid rs).2 s + 1 := by
  obtain ⟨-, hvec, -, -, hcfg⟩ := add_timer_ticks_spec s tk tid rs idx hcalc
  unfold occBuckets
  rw [hcfg, hvec]
  have hmap : ((List.range (WHEEL_SIZE s.cfg)).map fun i =>
      ((fun j => if j = idx then s.vectors idx ++ [(add_timer_ticks s tk tid rs).2]
        else s.vectors j) i).count (add_timer_ticks s tk tid rs).2) =
      ((List.range (WHEEL_SIZE s.cfg)).map fun i =>
        if i = idx then (s.vectors idx ++ [(add_timer_ticks s tk tid rs).2]).count
            (add_timer_ticks s tk tid rs).2
        else (s.vectors i).count (add_timer_ticks s tk tid rs).2) := by
    refine List.map_congr_left fun i _ => ?_
    dsimp only
    by_cases h : i = idx
    · rw [if_pos h, if_pos h]
    · rw [if_neg h, if_neg h]
  rw [hmap]
  have hupd := sumRange_update (WHEEL_SIZE s.cfg)
    (fun i => (s.vectors i).count (add_timer_ticks s tk tid rs).2) idx
    ((s.vectors idx ++ [(add_timer_ticks s tk tid rs).2]).count
      (add_timer_ticks s tk tid rs).2) hlt
  have hcount : (s.vectors idx ++ [(add_timer_ticks s tk tid rs).2]).count
      (add_timer_ticks s tk tid rs).2 =
      (s.vectors idx).count (add_timer_ticks s tk tid rs).2 + 1 := by
    rw [List.count_append]
    simp
  dsimp only at hupd
  omega

/-- C1 (amended): for every wheel state (any frequency, clock, bucket
contents and counters) and every timeout `t` with `1 ≤ t < maxTimeout`
(the claim's two endpoints fail: a 0-tick timeout never fires within a
0-tick advance, and a timeout of exactly `maxTimeout` overflows, is
clamped into the last bucket, and does not fire within `t` ticks — see
the counterexample), inserting a timer with timeout `t` ticks at
insertion tick `c = s.clock` and advancing by exactly `t` ticks fires
that timer's callback exactly once, and every firing of it carries
firing clock `c + t`; advancing by fewer ticks never fires it and
leaves it pending in its bucket.  The freshness hypothesis says the
inserted timer record is not already present in the wheel (trivially
true of the distinct object each Python `add_timer` call creates). -/
theorem C1_round_trip (s : TimerWheelSimulator) (t : Nat) (tid : Option String) (rs : Bool)
    (hD : 1 ≤ s.cfg.LVL_DEPTH) (h1 : 1 ≤ t) (h2 : t < WHEEL_TIMEOUT_MAX s.cfg)
    (hfresh : occBuckets (add_timer_ticks s (t : Int) tid rs).2 s = 0) :
    firedOcc (add_timer_ticks s (t : Int) tid rs).2
      (advanceTicks (add_timer_ticks s (t : Int) tid rs).1 t).fired = 1 ∧
    ((add_timer_ticks s (t : Int) tid rs).2, s.clock + t) ∈
      (advanceTicks (add_timer_ticks s (t : Int) tid rs).1 t).fired ∧
    (∀ p ∈ (advanceTicks (add_timer_ticks s (t : Int) tid rs).1 t).fired,
      p.1 = (add_timer_ticks s (t : Int) tid rs).2 → p.2 = s.clock + t) ∧
    ∀ u, u < t →
      firedOcc (add_timer_ticks s (t : Int) tid rs).2
        (advanceTicks (add_timer_ticks s (t : Int) tid rs).1 u).fired = 0 ∧
      (add_timer_ticks s (t : Int) tid rs).2 ∈
        (advanceTicks (add_timer_ticks s (t : Int) tid rs).1 u).state.vectors
          (add_timer_ticks s (t : Int) tid rs).2.wheel_index := by
  have hlt : ((s.clock : Int) + (t : Int)) - (s.clock : Int) <
      (WHEEL_TIMEOUT_MAX s.cfg : Int) := by
    omega
  obtain ⟨m, hm, hcalc⟩ := calc_index_eq_some s.cfg ((s.clock : Int) + (t : Int)) s.clock hD hlt
  have hdel : ((s.clock : Int) + (t : Int)) - (s.clock : Int) = (t : Int) := by ring
  rw [hdel] at hm
  obtain ⟨-, hm2, -, -⟩ := findLevelAux_eq_some s.cfg.LVL_DEPTH
    (WHEEL_TIMEOUT_MAX s.cfg) _ s.cfg.LVL_DEPTH 0 m (by omega) hm
  have hmD : m < s.cfg.LVL_DEPTH := by omega
  obtain ⟨htm, hvec, hpendf, hclock, hcfg⟩ := add_timer_ticks_spec s (t : Int) tid rs _ hcalc
  have hexp : (add_timer_ticks s (t : Int) tid rs).2.expires = ((s.clock + t : Nat) : Int) := by
    rw [htm]
    push_cast
    ring
  have hwi : (add_timer_ticks s (t : Int) tid rs).2.wheel_index =
      m * LVL_SIZE + (s.clock + t) >>> (LVL_CLK_SHIFT * m) % LVL_SIZE := by
    rw [htm]
    dsimp only
    rw [show ((s.clock : Int) + (t : Int)) = (((s.clock + t : Nat)) : Int) from by push_cast; ring,
      py_slot_eq_scan_slot]
  have hwi0 : (add_timer_ticks s (t : Int) tid rs).2.wheel_index =
      m * LVL_SIZE + py_mask (py_shr ((s.clock : Int) + (t : Int)) (LVL_CLK_SHIFT * m)) := by
    rw [htm]
  have hidxlt : m * LVL_SIZE + py_mask (py_shr ((s.clock : Int) + (t : Int))
      (LVL_CLK_SHIFT * m)) < WHEEL_SIZE s.cfg := by
    have h64 := py_mask_lt (py_shr ((s.clock : Int) + (t : Int)) (LVL_CLK_SHIFT * m))
    unfold WHEEL_SIZE
    rw [LVL_SIZE_eq] at *
    omega
  have hmem1 : (add_timer_ticks s (t : Int) tid rs).2 ∈
      (add_timer_ticks s (t : Int) tid rs).1.vectors
        (add_timer_ticks s (t : Int) tid rs).2.wheel_index := by
    rw [hvec, hwi0]
    dsimp only
    rw [if_pos rfl]
    exact List.mem_append_right _ (List.mem_singleton_self _)
  have hpend1 : (add_timer_ticks s (t : Int) tid rs).1.pending_map
      (add_timer_ticks s (t : Int) tid rs).2.wheel_index ≠ 0 := by
    rw [hpendf, hwi0]
    dsimp only
    rw [if_pos rfl]
    exact one_ne_zero
  have hocc1 : occBuckets (add_timer_ticks s (t : Int) tid rs).2
      (add_timer_ticks s (t : Int) tid rs).1 = 1 := by
    rw [occBuckets_add_timer s (t : Int) tid rs _ hcalc hidxlt, hfresh]
  have hauxdef : ∀ n : Nat, advanceTicks (add_timer_ticks s (t : Int) tid rs).1 n =
      advanceTicksAux n
        ⟨(add_timer_ticks s (t : Int) tid rs).1, [], [], 0⟩ := fun n => rfl
  have hclk0 : (⟨(add_timer_ticks s (t : Int) tid rs).1, [], [], 0⟩ :
      AdvanceResult).state.clock = s.clock := hclock
  have hfewer : ∀ u, u < t →
      firedOcc (add_timer_ticks s (t : Int) tid rs).2
        (advanceTicks (add_timer_ticks s (t : Int) tid rs).1 u).fired = 0 ∧
      (add_timer_ticks s (t : Int) tid rs).2 ∈
        (advanceTicks (add_timer_ticks s (t : Int) tid rs).1 u).state.vectors
          (add_timer_ticks s (t : Int) tid rs).2.wheel_index := by
    intro u hu
    have hne : ((( ⟨(add_timer_ticks s (t : Int) tid rs).1, [], [], 0⟩ :
        AdvanceResult).state.clock + u : Nat) : Int) <
        (add_timer_ticks s (t : Int) tid rs).2.expires := by
      rw [hclk0, hexp]
      push_cast
      omega
    obtain ⟨hka, hkb⟩ := advanceTicksAux_keeps_timer
      (add_timer_ticks s (t : Int) tid rs).2 u
      ⟨(add_timer_ticks s (t : Int) tid rs).1, [], [], 0⟩ hne hmem1 hpend1
    refine ⟨?_, by rw [hauxdef u]; exact hka⟩
    rw [hauxdef u]
    unfold firedOcc
    rw [List.count_eq_zero]
    intro hmemf
    obtain ⟨p, hp, hp1⟩ := List.mem_map.mp hmemf
    rcases advanceTicksAux_fired_sound u
      ⟨(add_timer_ticks s (t : Int) tid rs).1, [], [], 0⟩ p hp with h | h
    · exact absurd h (List.not_mem_nil p)
    · rw [hclk0] at h
      rw [hp1, hexp] at h
      have hc1 : s.clock + t ≤ p.2 := by exact_mod_cast h.2.2
      omega
  refine ⟨?_, ?_, ?_, hfewer⟩
  all_goals {
    have hsplit : advanceTicksAux t
        (⟨(add_timer_ticks s (t : Int) tid rs).1, [], [], 0⟩ : AdvanceResult) =
        tickStep (advanceTicksAux (t - 1)
          ⟨(add_timer_ticks s (t : Int) tid rs).1, [], [], 0⟩) := by
      rw [show t = (t - 1) + 1 from by omega, advanceTicksAux_add (t - 1) 1]
      rfl
    have hclk' : (advanceTicksAux (t - 1)
        (⟨(add_timer_ticks s (t : Int) tid rs).1, [], [], 0⟩ : AdvanceResult)).state.clock =
        s.clock + (t - 1) := by
      rw [advanceTicksAux_clock, hclk0]
    have hcfg' : (advanceTicksAux (t - 1)
        (⟨(add_timer_ticks s (t : Int) tid rs).1, [], [], 0⟩ : AdvanceResult)).state.cfg =
        s.cfg := by
      rw [advanceTicksAux_cfg]
      exact hcfg
    have hne' : ((( ⟨(add_timer_ticks s (t : Int) tid rs).1, [], [], 0⟩ :
        AdvanceResult).state.clock + (t - 1) : Nat) : Int) <
        (add_timer_ticks s (t : Int) tid rs).2.expires := by
      rw [hclk0, hexp]
      push_cast
      omega
    obtain ⟨hka, hkb⟩ := advanceTicksAux_keeps_timer
      (add_timer_ticks s (t : Int) tid rs).2 (t - 1)
      ⟨(add_timer_ticks s (t : Int) tid rs).1, [], [], 0⟩ hne' hmem1 hpend1
    have hfire := tickStep_fires_due (add_timer_ticks s (t : Int) tid rs).2
      (advanceTicksAux (t - 1) ⟨(add_timer_ticks s (t : Int) tid rs).1, [], [], 0⟩) m
      (by rw [hcfg']; exact hmD)
      (by rw [hclk', hwi, show s.clock + (t - 1) + 1 = s.clock + t from by omega])
      hka hkb
      (by rw [hclk', hexp, show s.clock + (t - 1) + 1 = s.clock + t from by omega])
    rw [hclk', show s.clock + (t - 1) + 1 = s.clock + t from by omega] at hfire
    rw [← hsplit] at hfire
    have hcons := advanceTicksAux_conserves (add_timer_ticks s (t : Int) tid rs).2 t
      ⟨(add_timer_ticks s (t : Int) tid rs).1, [], [], 0⟩
    have hocc0 : firedOcc (add_timer_ticks s (t : Int) tid rs).2
        (advanceTicksAux t (⟨(add_timer_ticks s (t : Int) tid rs).1, [], [], 0⟩ :
          AdvanceResult)).fired ≠ 0 := by
      unfold firedOcc
      rw [Ne, List.count_eq_zero]
      intro hnm
      exact hnm (List.mem_map.mpr ⟨_, hfire, rfl⟩)
    have hocc2 : occBuckets (add_timer_ticks s (t : Int) tid rs).2
        (⟨(add_timer_ticks s (t : Int) tid rs).1, [], [], 0⟩ :
          AdvanceResult).state = 1 := hocc1
    first
    | -- firedOcc = 1
      (rw [hauxdef t]
       show firedOcc _ _ = 1
       rw [hocc2] at hcons
       have hz0 : firedOcc (add_timer_ticks s (t : Int) tid rs).2
           (⟨(add_timer_ticks s (t : Int) tid rs).1, [], [], 0⟩ :
             AdvanceResult).fired = 0 := rfl
       rw [hz0] at hcons
       omega)
    | -- membership
      (rw [hauxdef t]
       exact hfire)
    | -- uniqueness of the firing tick
      (rw [hauxdef t]
       intro p hp hp1
       rcases advanceTicksAux_fired_sound t
         ⟨(add_timer_ticks s (t : Int) tid rs).1, [], [], 0⟩ p hp with h | h
       · exact absurd h (List.not_mem_nil p)
       · rw [hclk0] at h
         rw [hp1, hexp] at h
         have hc1 : s.clock + t ≤ p.2 := by exact_mod_cast h.2.2
         omega)
  }

/-- Witness for C1: the spec's concrete scenario — a 100-tick timer
(100ms at HZ=1000) inserted at tick 0 fires exactly once, at tick 100;
advancing only to tick 99 fires it zero times and leaves it pending. -/
theorem C1_witness :
    ((1 : Nat) ≤ (initSim 1000).cfg.LVL_DEPTH ∧ (1 : Nat) ≤ 100 ∧
     (100 : Nat) < WHEEL_TIMEOUT_MAX (initSim 1000).cfg ∧
     occBuckets (add_timer_ticks (initSim 1000) (100 : Int) none false).2 (initSim 1000) = 0) ∧
    firedOcc (add_timer_ticks (initSim 1000) (100 : Int) none false).2
      (advanceTicks (add_timer_ticks (initSim 1000) (100 : Int) none false).1 100).fired = 1 ∧
    ((add_timer_ticks (initSim 1000) (100 : Int) none false).2, 0 + 100) ∈
      (advanceTicks (add_timer_ticks (initSim 1000) (100 : Int) none false).1 100).fired ∧
    firedOcc (add_timer_ticks (initSim 1000) (100 : Int) none false).2
      (advanceTicks (add_timer_ticks (initSim 1000) (100 : Int) none false).1 99).fired = 0 ∧
    (add_timer_ticks (initSim 1000) (100 : Int) none false).2 ∈
      (advanceTicks (add_timer_ticks (initSim 1000) (100 : Int) none
          false).1 99).state.vectors
        (add_timer_ticks (initSim 1000) (100 : Int) none false).2.wheel_index :=
  ⟨⟨by decide, by decide, by decide, by decide⟩,
   (C1_round_trip (initSim 1000) 100 none false (by decide) (by decide) (by decide)
     (by decide)).1,
   (C1_round_trip (initSim 1000) 100 none false (by decide) (by decide) (by decide)
     (by decide)).2.1,
   ((C1_round_trip (initSim 1000) 100 none false (by decide) (by decide) (by decide)
     (by decide)).2.2.2 99 (by decide)).1,
   ((C1_round_trip (initSim 1000) 100 none false (by decide) (by decide) (by decide)
     (by decide)).2.2.2 99 (by decide)).2⟩
